import Mathlib

/-!
Verification development for the Hexagon peephole optimizer
(`src/HexagonOptimize.cpp`): a shallow embedding of the expression IR,
the pattern tables, the pattern engine `apply_patterns`, the instruction
selector `OptimizePatterns`, the interleave eliminator
`EliminateInterleaves`, the upper-bound helper and the shuffle optimizer
`OptimizeShuffles`, together with theorems about the frozen claims.

External collaborators (the structural matcher, the algebraic simplifier,
common-subexpression elimination, bounds inference, the lossless-cast
query and the constant predicates) live outside the translated source
file; they are modelled from the specification where noted.

Fatal internal assertions (`internal_assert` / `internal_error`) are
modelled by `Option`: `none` means the pass halts with a fatal
invariant violation; recoverable match failures are ordinary control
flow inside the definitions.
-/

namespace HexOpt

/-- Element kind of a Halide type: signed int, unsigned int, or float. -/
inductive TCode where
  | int
  | uint
  | float
  deriving DecidableEq, Repr

/-- A Halide type: element kind, bit width and lane count.  Lane count 1 is a
scalar; lane count 0 is the wildcard lane count used by pattern templates. -/
structure Ty where
  code : TCode
  bits : Nat
  lanes : Nat
  deriving DecidableEq, Repr

/-- Construct the same type with a different lane count. -/
def Ty.with_lanes (t : Ty) (l : Nat) : Ty := { t with lanes := l }

/-- Construct the same type with a different bit width. -/
def Ty.with_bits (t : Ty) (b : Nat) : Ty := { t with bits := b }

/-- Construct the same type with a different element kind. -/
def Ty.with_code (t : Ty) (c : TCode) : Ty := { t with code := c }

/-- The scalar element type (lane count 1). -/
def Ty.scalarOf (t : Ty) : Ty := { t with lanes := 1 }

/-- Mirrors `Type::is_scalar`: lane count equal to 1. -/
def Ty.is_scalar (t : Ty) : Bool := t.lanes == 1

/-- Mirrors `Type::is_vector`: lane count different from 1. -/
def Ty.is_vector (t : Ty) : Bool := t.lanes != 1

/-- Call classes of the opaque call node (`Call::CallType`). -/
inductive CallType where
  | pureExtern
  | pureIntrinsic
  | intrinsic
  deriving DecidableEq, Repr

mutual
/-- The immutable typed expression tree of the Halide IR, restricted to the
node kinds the optimizer manipulates.  Statements are represented by the same
tree (`let_` stands for both `Let` and `LetStmt`). -/
inductive Expr where
  | intImm (ty : Ty) (val : Int)
  | var (ty : Ty) (name : String)
  | cast (ty : Ty) (value : Expr)
  | add (a b : Expr)
  | sub (a b : Expr)
  | mul (a b : Expr)
  | div (a b : Expr)
  | mod (a b : Expr)
  | min (a b : Expr)
  | max (a b : Expr)
  | eq (a b : Expr)
  | ne (a b : Expr)
  | lt (a b : Expr)
  | le (a b : Expr)
  | gt (a b : Expr)
  | ge (a b : Expr)
  | and (a b : Expr)
  | or (a b : Expr)
  | not (a : Expr)
  | select (cond tval fval : Expr)
  | let_ (name : String) (value body : Expr)
  | broadcast (value : Expr) (lanes : Nat)
  | ramp (base stride : Expr) (lanes : Nat)
  | load (ty : Ty) (name : String) (index : Expr)
  | call (ty : Ty) (name : String) (args : ExprList) (ct : CallType)
  deriving DecidableEq, Repr

/-- Argument lists of call nodes, as a dedicated inductive so that all
recursions over the tree are structural. -/
inductive ExprList where
  | nil
  | cons (e : Expr) (es : ExprList)
  deriving DecidableEq, Repr
end

/-- Convert a plain list of expressions to an argument list. -/
def EL : List Expr → ExprList
  | [] => .nil
  | e :: es => .cons e (EL es)

/-- Convert an argument list back to a plain list. -/
def ExprList.toList : ExprList → List Expr
  | .nil => []
  | .cons e es => e :: es.toList

/-- Length of an argument list. -/
def ExprList.length : ExprList → Nat
  | .nil => 0
  | .cons _ es => es.length + 1

/-- First element of an argument list, if any. -/
def ExprList.head? : ExprList → Option Expr
  | .nil => none
  | .cons e _ => some e

/-- Map a fallible function over an argument list, failing if any element
fails (a fatal error inside any argument aborts the whole pass). -/
def ExprList.mapM (f : Expr → Option Expr) : ExprList → Option ExprList
  | .nil => some .nil
  | .cons e es => do
    let e' ← f e
    let es' ← es.mapM f
    some (.cons e' es')

/-- Append two argument lists. -/
def ExprList.append : ExprList → ExprList → ExprList
  | .nil, ys => ys
  | .cons e es, ys => .cons e (es.append ys)

/-- The boolean type over a given lane count (`UInt(1)` in Halide). -/
def boolTy (lanes : Nat) : Ty := ⟨.uint, 1, lanes⟩

/-- The type of an expression, mirroring `Expr::type()` of the Halide IR. -/
def Expr.ty : Expr → Ty
  | .intImm t _ => t
  | .var t _ => t
  | .cast t _ => t
  | .add a _ => a.ty
  | .sub a _ => a.ty
  | .mul a _ => a.ty
  | .div a _ => a.ty
  | .mod a _ => a.ty
  | .min a _ => a.ty
  | .max a _ => a.ty
  | .eq a _ => boolTy a.ty.lanes
  | .ne a _ => boolTy a.ty.lanes
  | .lt a _ => boolTy a.ty.lanes
  | .le a _ => boolTy a.ty.lanes
  | .gt a _ => boolTy a.ty.lanes
  | .ge a _ => boolTy a.ty.lanes
  | .and a _ => boolTy a.ty.lanes
  | .or a _ => boolTy a.ty.lanes
  | .not a => boolTy a.ty.lanes
  | .select _ t _ => t.ty
  | .let_ _ _ b => b.ty
  | .broadcast v l => v.ty.with_lanes l
  | .ramp b _ l => b.ty.with_lanes l
  | .load t _ _ => t
  | .call t _ _ _ => t

mutual
/-- Size of an expression tree, used to choose generous fuel values. -/
def Expr.size : Expr → Nat
  | .intImm _ _ => 1
  | .var _ _ => 1
  | .cast _ v => v.size + 1
  | .add a b | .sub a b | .mul a b | .div a b | .mod a b
  | .min a b | .max a b | .eq a b | .ne a b | .lt a b
  | .le a b | .gt a b | .ge a b | .and a b | .or a b => a.size + b.size + 1
  | .not a => a.size + 1
  | .select c t f => c.size + t.size + f.size + 1
  | .let_ _ v b => v.size + b.size + 1
  | .broadcast v _ => v.size + 1
  | .ramp b s _ => b.size + s.size + 1
  | .load _ _ i => i.size + 1
  | .call _ _ args _ => args.sizeAll + 1

/-- Total size of an argument list. -/
def ExprList.sizeAll : ExprList → Nat
  | .nil => 0
  | .cons e es => e.size + es.sizeAll
end

/-! ### Expression construction helpers

These mirror the `IROperator` helpers the source file uses to build pattern
templates and rewritten expressions.  `cast`, `clamp`, `match_types` and the
operator overloads are external collaborators; they are modelled from the
spec ("type coercion", "lossless-cast query", and the IR construction
described in the data model), with the concrete structure chosen to be the
one the source relies on: a cast folds away when the type already matches,
casting a scalar to a vector type broadcasts, and mixing a vector with a
scalar operand broadcasts the scalar. -/

/-- Modelled from the spec: the `cast` construction helper.  Identical types
fold to the operand itself; a scalar cast to a vector type becomes a
broadcast of the scalar cast. -/
def castTo (t : Ty) (a : Expr) : Expr :=
  if a.ty == t then a
  else if t.is_vector && a.ty.is_scalar then
    .broadcast (if a.ty == t.scalarOf then a else .cast t.scalarOf a) t.lanes
  else .cast t a

/-- Modelled from the spec: `make_const` — a scalar immediate, broadcast
across the lanes for a vector type. -/
def make_const (t : Ty) (v : Int) : Expr :=
  if t.is_scalar then .intImm t v else .broadcast (.intImm t.scalarOf v) t.lanes

/-- Modelled from the spec: `match_types` type coercion for binary operator
construction — a scalar operand is broadcast to the vector operand's type. -/
def match_types (a b : Expr) : Expr × Expr :=
  if a.ty == b.ty then (a, b)
  else if a.ty.is_vector && b.ty.is_scalar then (a, castTo a.ty b)
  else if b.ty.is_vector && a.ty.is_scalar then (castTo b.ty a, b)
  else (a, b)

/-- Binary `+` with operand type coercion. -/
def addE (a b : Expr) : Expr := let p := match_types a b; .add p.1 p.2

/-- Binary `-` with operand type coercion. -/
def subE (a b : Expr) : Expr := let p := match_types a b; .sub p.1 p.2

/-- Binary `*` with operand type coercion. -/
def mulE (a b : Expr) : Expr := let p := match_types a b; .mul p.1 p.2

/-- Binary `/` with operand type coercion. -/
def divE (a b : Expr) : Expr := let p := match_types a b; .div p.1 p.2

/-- Binary `min` with operand type coercion. -/
def minE (a b : Expr) : Expr := let p := match_types a b; .min p.1 p.2

/-- Binary `max` with operand type coercion. -/
def maxE (a b : Expr) : Expr := let p := match_types a b; .max p.1 p.2

/-- `Expr + int`: the integer is materialized at the expression's type. -/
def addI (a : Expr) (n : Int) : Expr := .add a (make_const a.ty n)

/-- `Expr / int`: the integer is materialized at the expression's type. -/
def divI (a : Expr) (n : Int) : Expr := .div a (make_const a.ty n)

/-- The `shift_right` intrinsic call, with scalar-operand broadcast. -/
def shrE (a b : Expr) : Expr :=
  let p := match_types a b
  .call p.1.ty "shift_right" (EL [p.1, p.2]) .pureIntrinsic

/-- The `shift_left` intrinsic call, with scalar-operand broadcast. -/
def shlE (a b : Expr) : Expr :=
  let p := match_types a b
  .call p.1.ty "shift_left" (EL [p.1, p.2]) .pureIntrinsic

/-- The `bitwise_not` intrinsic call (`operator~`). -/
def bnot (a : Expr) : Expr := .call a.ty "bitwise_not" (EL [a]) .pureIntrinsic

/-- The `count_leading_zeros` intrinsic call. -/
def clz (a : Expr) : Expr := .call a.ty "count_leading_zeros" (EL [a]) .pureIntrinsic

/-- Mirrors `bc` from the source: a broadcast with the unknown-lane count 0
used inside pattern templates. -/
def bc (e : Expr) : Expr := .broadcast e 0

/-- Cast to unsigned 8-bit at the operand's lane count (`u8`). -/
def u8 (e : Expr) : Expr := castTo ⟨.uint, 8, e.ty.lanes⟩ e

/-- Cast to signed 8-bit at the operand's lane count (`i8`). -/
def i8 (e : Expr) : Expr := castTo ⟨.int, 8, e.ty.lanes⟩ e

/-- Cast to unsigned 16-bit at the operand's lane count (`u16`). -/
def u16 (e : Expr) : Expr := castTo ⟨.uint, 16, e.ty.lanes⟩ e

/-- Cast to signed 16-bit at the operand's lane count (`i16`). -/
def i16 (e : Expr) : Expr := castTo ⟨.int, 16, e.ty.lanes⟩ e

/-- Cast to unsigned 32-bit at the operand's lane count (`u32`). -/
def u32 (e : Expr) : Expr := castTo ⟨.uint, 32, e.ty.lanes⟩ e

/-- Cast to signed 32-bit at the operand's lane count (`i32`). -/
def i32 (e : Expr) : Expr := castTo ⟨.int, 32, e.ty.lanes⟩ e

/-- Cast to unsigned 64-bit at the operand's lane count (`u64`). -/
def u64 (e : Expr) : Expr := castTo ⟨.uint, 64, e.ty.lanes⟩ e

/-- Cast to signed 64-bit at the operand's lane count (`i64`). -/
def i64 (e : Expr) : Expr := castTo ⟨.int, 64, e.ty.lanes⟩ e

/-- The smallest signed 8-bit value, as in the source's `min_i8`. -/
def min_i8 : Expr := .intImm ⟨.int, 8, 1⟩ (-128)

/-- The largest signed 8-bit value. -/
def max_i8 : Expr := .intImm ⟨.int, 8, 1⟩ 127

/-- The smallest unsigned 8-bit value. -/
def min_u8 : Expr := .intImm ⟨.uint, 8, 1⟩ 0

/-- The largest unsigned 8-bit value. -/
def max_u8 : Expr := .intImm ⟨.uint, 8, 1⟩ 255

/-- The smallest signed 16-bit value. -/
def min_i16 : Expr := .intImm ⟨.int, 16, 1⟩ (-32768)

/-- The largest signed 16-bit value. -/
def max_i16 : Expr := .intImm ⟨.int, 16, 1⟩ 32767

/-- The smallest unsigned 16-bit value. -/
def min_u16 : Expr := .intImm ⟨.uint, 16, 1⟩ 0

/-- The largest unsigned 16-bit value. -/
def max_u16 : Expr := .intImm ⟨.uint, 16, 1⟩ 65535

/-- The smallest signed 32-bit value. -/
def min_i32 : Expr := .intImm ⟨.int, 32, 1⟩ (-2147483648)

/-- The largest signed 32-bit value. -/
def max_i32 : Expr := .intImm ⟨.int, 32, 1⟩ 2147483647

/-- The smallest unsigned 32-bit value. -/
def min_u32 : Expr := .intImm ⟨.uint, 32, 1⟩ 0

/-- The largest unsigned 32-bit value. -/
def max_u32 : Expr := .intImm ⟨.uint, 32, 1⟩ 4294967295

/-- Modelled from the spec: the `is_zero` constant predicate, looking through
broadcasts. -/
def is_zero : Expr → Bool
  | .intImm _ v => v == 0
  | .broadcast v _ => is_zero v
  | _ => false

/-- Modelled from the spec: `clamp(a, lo, hi) = max(min(a, hi), lo)` with
both bounds cast to the operand's type. -/
def clampTo (a lo hi : Expr) : Expr :=
  .max (.min a (castTo a.ty hi)) (castTo a.ty lo)

/-- Mirrors `simplified_clamp` from the source: the simplifier eliminates
`max(x, 0)` for unsigned `x`, so the patterns do the same. -/
def simplified_clamp (x lo hi : Expr) : Expr :=
  if x.ty.code == .uint && is_zero lo then minE x hi else clampTo x lo hi

/-- Saturating cast helper `i32c`. -/
def i32c (e : Expr) : Expr := i32 (simplified_clamp e min_i32 max_i32)

/-- Saturating cast helper `u32c`. -/
def u32c (e : Expr) : Expr := u32 (simplified_clamp e min_u32 max_u32)

/-- Saturating cast helper `i16c`. -/
def i16c (e : Expr) : Expr := i16 (simplified_clamp e min_i16 max_i16)

/-- Saturating cast helper `u16c`. -/
def u16c (e : Expr) : Expr := u16 (simplified_clamp e min_u16 max_u16)

/-- Saturating cast helper `i8c`. -/
def i8c (e : Expr) : Expr := i8 (simplified_clamp e min_i8 max_i8)

/-- Saturating cast helper `u8c`. -/
def u8c (e : Expr) : Expr := u8 (simplified_clamp e min_u8 max_u8)

/-- Scalar unsigned 8-bit wildcard. -/
def wild_u8 : Expr := .var ⟨.uint, 8, 1⟩ "*"

/-- Scalar unsigned 16-bit wildcard. -/
def wild_u16 : Expr := .var ⟨.uint, 16, 1⟩ "*"

/-- Scalar unsigned 32-bit wildcard. -/
def wild_u32 : Expr := .var ⟨.uint, 32, 1⟩ "*"

/-- Scalar unsigned 64-bit wildcard. -/
def wild_u64 : Expr := .var ⟨.uint, 64, 1⟩ "*"

/-- Scalar signed 8-bit wildcard. -/
def wild_i8 : Expr := .var ⟨.int, 8, 1⟩ "*"

/-- Scalar signed 16-bit wildcard. -/
def wild_i16 : Expr := .var ⟨.int, 16, 1⟩ "*"

/-- Scalar signed 32-bit wildcard. -/
def wild_i32 : Expr := .var ⟨.int, 32, 1⟩ "*"

/-- Scalar signed 64-bit wildcard. -/
def wild_i64 : Expr := .var ⟨.int, 64, 1⟩ "*"

/-- Vector unsigned 8-bit wildcard (unknown lane count 0). -/
def wild_u8x : Expr := .var ⟨.uint, 8, 0⟩ "*"

/-- Vector unsigned 16-bit wildcard. -/
def wild_u16x : Expr := .var ⟨.uint, 16, 0⟩ "*"

/-- Vector unsigned 32-bit wildcard. -/
def wild_u32x : Expr := .var ⟨.uint, 32, 0⟩ "*"

/-- Vector unsigned 64-bit wildcard. -/
def wild_u64x : Expr := .var ⟨.uint, 64, 0⟩ "*"

/-- Vector signed 8-bit wildcard. -/
def wild_i8x : Expr := .var ⟨.int, 8, 0⟩ "*"

/-- Vector signed 16-bit wildcard. -/
def wild_i16x : Expr := .var ⟨.int, 16, 0⟩ "*"

/-- Vector signed 32-bit wildcard. -/
def wild_i32x : Expr := .var ⟨.int, 32, 0⟩ "*"

/-- Vector signed 64-bit wildcard. -/
def wild_i64x : Expr := .var ⟨.int, 64, 0⟩ "*"

/-! ### Interleave and deinterleave markers -/

/-- Mirrors `native_interleave`: wrap in the width-keyed interleave marker
call; `internal_error` (here `none`) for a width other than 8/16/32. -/
def native_interleave (x : Expr) : Option Expr :=
  match x.ty.bits with
  | 8 => some (.call x.ty "halide.hexagon.interleave.vb" (EL [x]) .pureExtern)
  | 16 => some (.call x.ty "halide.hexagon.interleave.vh" (EL [x]) .pureExtern)
  | 32 => some (.call x.ty "halide.hexagon.interleave.vw" (EL [x]) .pureExtern)
  | _ => none

/-- Mirrors `native_deinterleave`: wrap in the width-keyed deinterleave
marker call; `none` for a width other than 8/16/32. -/
def native_deinterleave (x : Expr) : Option Expr :=
  match x.ty.bits with
  | 8 => some (.call x.ty "halide.hexagon.deinterleave.vb" (EL [x]) .pureExtern)
  | 16 => some (.call x.ty "halide.hexagon.deinterleave.vh" (EL [x]) .pureExtern)
  | 32 => some (.call x.ty "halide.hexagon.deinterleave.vw" (EL [x]) .pureExtern)
  | _ => none

/-- Mirrors `starts_with`: string prefix test (written over the character
lists so that it evaluates by kernel reduction). -/
def starts_with (s pre : String) : Bool := pre.data.isPrefixOf s.data

/-- Mirrors `is_native_interleave_op`: a one-argument call whose name starts
with the given marker-family name. -/
def is_native_interleave_op (x : Expr) (name : String) : Bool :=
  match x with
  | .call _ n args _ => args.length == 1 && starts_with n name
  | _ => false

/-- Mirrors `is_native_interleave`. -/
def is_native_interleave (x : Expr) : Bool :=
  is_native_interleave_op x "halide.hexagon.interleave"

/-- Mirrors `is_native_deinterleave`. -/
def is_native_deinterleave (x : Expr) : Bool :=
  is_native_interleave_op x "halide.hexagon.deinterleave"

/-! ### Pattern tables -/

/-- A rewrite pattern: intrinsic name, template expression (with typed
wildcard leaves) and positional flag bits. -/
structure Pattern where
  intrin : String
  pattern : Expr
  flags : Nat
  deriving DecidableEq, Repr

namespace Pattern

/-- Flag: after evaluating the pattern, interleave the result. -/
def InterleaveResult : Nat := 1 <<< 0

/-- Flag: swap operands 0 and 1 prior to substitution. -/
def SwapOps01 : Nat := 1 <<< 1

/-- Flag: swap operands 1 and 2 prior to substitution. -/
def SwapOps12 : Nat := 1 <<< 2

/-- Flag: replace operand 1 with its log base 2, if exact. -/
def ExactLog2Op1 : Nat := 1 <<< 3

/-- Flag: replace operand 2 with its log base 2, if exact. -/
def ExactLog2Op2 : Nat := 1 <<< 4

/-- Flag: deinterleave operand 0 prior to evaluating the pattern. -/
def DeinterleaveOp0 : Nat := 1 <<< 5

/-- Flag: deinterleave operand 1. -/
def DeinterleaveOp1 : Nat := 1 <<< 6

/-- Flag: deinterleave operand 2. -/
def DeinterleaveOp2 : Nat := 1 <<< 7

/-- All three deinterleave flags. -/
def DeinterleaveOps : Nat := DeinterleaveOp0 ||| DeinterleaveOp1 ||| DeinterleaveOp2

/-- Flag: replace operand 0 with its half-width equivalent. -/
def NarrowOp0 : Nat := 1 <<< 10

/-- Flag: narrow operand 1. -/
def NarrowOp1 : Nat := 1 <<< 11

/-- Flag: narrow operand 2. -/
def NarrowOp2 : Nat := 1 <<< 12

/-- All three narrow flags. -/
def NarrowOps : Nat := NarrowOp0 ||| NarrowOp1 ||| NarrowOp2

/-- Flag: narrow operand 0 to an unsigned half-width type. -/
def NarrowUnsignedOp0 : Nat := 1 <<< 15

/-- Flag: narrow operand 1 to an unsigned half-width type. -/
def NarrowUnsignedOp1 : Nat := 1 <<< 16

/-- Flag: narrow operand 2 to an unsigned half-width type. -/
def NarrowUnsignedOp2 : Nat := 1 <<< 17

/-- All three unsigned-narrow flags. -/
def NarrowUnsignedOps : Nat := NarrowUnsignedOp0 ||| NarrowUnsignedOp1 ||| NarrowUnsignedOp2

end Pattern

/-- The cast pattern table, transcribed in declaration order. -/
def casts : List Pattern := [
  ⟨"halide.hexagon.avg.vub.vub", u8 (divI (addE wild_u16x wild_u16x) 2), Pattern.NarrowOps⟩,
  ⟨"halide.hexagon.avg.vuh.vuh", u16 (divI (addE wild_u32x wild_u32x) 2), Pattern.NarrowOps⟩,
  ⟨"halide.hexagon.avg.vh.vh", i16 (divI (addE wild_i32x wild_i32x) 2), Pattern.NarrowOps⟩,
  ⟨"halide.hexagon.avg.vw.vw", i32 (divI (addE wild_i64x wild_i64x) 2), Pattern.NarrowOps⟩,
  ⟨"halide.hexagon.avg_rnd.vub.vub", u8 (divI (addI (addE wild_u16x wild_u16x) 1) 2), Pattern.NarrowOps⟩,
  ⟨"halide.hexagon.avg_rnd.vuh.vuh", u16 (divI (addI (addE wild_u32x wild_u32x) 1) 2), Pattern.NarrowOps⟩,
  ⟨"halide.hexagon.avg_rnd.vh.vh", i16 (divI (addI (addE wild_i32x wild_i32x) 1) 2), Pattern.NarrowOps⟩,
  ⟨"halide.hexagon.avg_rnd.vw.vw", i32 (divI (addI (addE wild_i64x wild_i64x) 1) 2), Pattern.NarrowOps⟩,
  ⟨"halide.hexagon.navg.vub.vub", i8c (divI (subE wild_i16x wild_i16x) 2), Pattern.NarrowUnsignedOps⟩,
  ⟨"halide.hexagon.navg.vh.vh", i16c (divI (subE wild_i32x wild_i32x) 2), Pattern.NarrowOps⟩,
  ⟨"halide.hexagon.navg.vw.vw", i32c (divI (subE wild_i64x wild_i64x) 2), Pattern.NarrowOps⟩,
  ⟨"halide.hexagon.satub_add.vub.vub", u8c (addE wild_u16x wild_u16x), Pattern.NarrowOps⟩,
  ⟨"halide.hexagon.satuh_add.vuh.vuh", u16c (addE wild_u32x wild_u32x), Pattern.NarrowOps⟩,
  ⟨"halide.hexagon.sath_add.vh.vh", i16c (addE wild_i32x wild_i32x), Pattern.NarrowOps⟩,
  ⟨"halide.hexagon.satw_add.vw.vw", i32c (addE wild_i64x wild_i64x), Pattern.NarrowOps⟩,
  ⟨"halide.hexagon.satub_sub.vub.vub", u8c (subE wild_i16x wild_i16x), Pattern.NarrowUnsignedOps⟩,
  ⟨"halide.hexagon.satuh_sub.vuh.vuh", u16c (subE wild_i32x wild_i32x), Pattern.NarrowUnsignedOps⟩,
  ⟨"halide.hexagon.sath_sub.vh.vh", i16c (subE wild_i32x wild_i32x), Pattern.NarrowOps⟩,
  ⟨"halide.hexagon.satw_sub.vw.vw", i32c (subE wild_i64x wild_i64x), Pattern.NarrowOps⟩,
  ⟨"halide.hexagon.trunc_satub_rnd.vh", u8c (divI (addI wild_i32x 128) 256), Pattern.DeinterleaveOp0 ||| Pattern.NarrowOp0⟩,
  ⟨"halide.hexagon.trunc_satb_rnd.vh", i8c (divI (addI wild_i32x 128) 256), Pattern.DeinterleaveOp0 ||| Pattern.NarrowOp0⟩,
  ⟨"halide.hexagon.trunc_satuh_rnd.vw", u16c (divI (addI wild_i64x 32768) 65536), Pattern.DeinterleaveOp0 ||| Pattern.NarrowOp0⟩,
  ⟨"halide.hexagon.trunc_sath_rnd.vw", i16c (divI (addI wild_i64x 32768) 65536), Pattern.DeinterleaveOp0 ||| Pattern.NarrowOp0⟩,
  ⟨"halide.hexagon.trunc_satub_shr.vh.h", u8c (shrE wild_i16x wild_i16), Pattern.DeinterleaveOp0⟩,
  ⟨"halide.hexagon.trunc_satuh_shr.vw.w", u16c (shrE wild_i32x wild_i32), Pattern.DeinterleaveOp0⟩,
  ⟨"halide.hexagon.trunc_sath_shr.vw.w", i16c (shrE wild_i32x wild_i32), Pattern.DeinterleaveOp0⟩,
  ⟨"halide.hexagon.trunc_satub_shr.vh.h", u8c (divE wild_i16x wild_i16), Pattern.DeinterleaveOp0 ||| Pattern.ExactLog2Op1⟩,
  ⟨"halide.hexagon.trunc_satuh_shr.vw.w", u16c (divE wild_i32x wild_i32), Pattern.DeinterleaveOp0 ||| Pattern.ExactLog2Op1⟩,
  ⟨"halide.hexagon.trunc_sath_shr.vw.w", i16c (divE wild_i32x wild_i32), Pattern.DeinterleaveOp0 ||| Pattern.ExactLog2Op1⟩,
  ⟨"halide.hexagon.pack_satub.vh", u8c wild_i16x, 0⟩,
  ⟨"halide.hexagon.pack_satuh.vw", u16c wild_i32x, 0⟩,
  ⟨"halide.hexagon.pack_satb.vh", i8c wild_i16x, 0⟩,
  ⟨"halide.hexagon.pack_sath.vw", i16c wild_i32x, 0⟩,
  ⟨"halide.hexagon.trunclo.vh", u8 (divI wild_u16x 256), Pattern.DeinterleaveOp0⟩,
  ⟨"halide.hexagon.trunclo.vh", u8 (divI wild_i16x 256), Pattern.DeinterleaveOp0⟩,
  ⟨"halide.hexagon.trunclo.vh", i8 (divI wild_u16x 256), Pattern.DeinterleaveOp0⟩,
  ⟨"halide.hexagon.trunclo.vh", i8 (divI wild_i16x 256), Pattern.DeinterleaveOp0⟩,
  ⟨"halide.hexagon.trunclo.vw", u16 (divI wild_u32x 65536), Pattern.DeinterleaveOp0⟩,
  ⟨"halide.hexagon.trunclo.vw", u16 (divI wild_i32x 65536), Pattern.DeinterleaveOp0⟩,
  ⟨"halide.hexagon.trunclo.vw", i16 (divI wild_u32x 65536), Pattern.DeinterleaveOp0⟩,
  ⟨"halide.hexagon.trunclo.vw", i16 (divI wild_i32x 65536), Pattern.DeinterleaveOp0⟩,
  ⟨"halide.hexagon.trunc_shr.vw.w", i16 (shrE wild_i32x wild_i32), Pattern.DeinterleaveOp0⟩,
  ⟨"halide.hexagon.trunc_shr.vw.w", i16 (divE wild_i32x wild_i32), Pattern.DeinterleaveOp0 ||| Pattern.ExactLog2Op1⟩,
  ⟨"halide.hexagon.pack.vh", u8 wild_u16x, 0⟩,
  ⟨"halide.hexagon.pack.vh", u8 wild_i16x, 0⟩,
  ⟨"halide.hexagon.pack.vh", i8 wild_u16x, 0⟩,
  ⟨"halide.hexagon.pack.vh", i8 wild_i16x, 0⟩,
  ⟨"halide.hexagon.pack.vw", u16 wild_u32x, 0⟩,
  ⟨"halide.hexagon.pack.vw", u16 wild_i32x, 0⟩,
  ⟨"halide.hexagon.pack.vw", i16 wild_u32x, 0⟩,
  ⟨"halide.hexagon.pack.vw", i16 wild_i32x, 0⟩,
  ⟨"halide.hexagon.zxt.vub", u16 wild_u8x, Pattern.InterleaveResult⟩,
  ⟨"halide.hexagon.zxt.vub", i16 wild_u8x, Pattern.InterleaveResult⟩,
  ⟨"halide.hexagon.zxt.vuh", u32 wild_u16x, Pattern.InterleaveResult⟩,
  ⟨"halide.hexagon.zxt.vuh", i32 wild_u16x, Pattern.InterleaveResult⟩,
  ⟨"halide.hexagon.sxt.vb", u16 wild_i8x, Pattern.InterleaveResult⟩,
  ⟨"halide.hexagon.sxt.vb", i16 wild_i8x, Pattern.InterleaveResult⟩,
  ⟨"halide.hexagon.sxt.vh", u32 wild_i16x, Pattern.InterleaveResult⟩,
  ⟨"halide.hexagon.sxt.vh", i32 wild_i16x, Pattern.InterleaveResult⟩]

/-- The multiply pattern table, transcribed in declaration order. -/
def muls : List Pattern := [
  ⟨"halide.hexagon.mpy.vub.ub", mulE wild_u16x (bc wild_u16), Pattern.InterleaveResult ||| Pattern.NarrowOps⟩,
  ⟨"halide.hexagon.mpy.vub.b", mulE wild_i16x (bc wild_i16), Pattern.InterleaveResult ||| Pattern.NarrowUnsignedOp0 ||| Pattern.NarrowOp1⟩,
  ⟨"halide.hexagon.mpy.vuh.uh", mulE wild_u32x (bc wild_u32), Pattern.InterleaveResult ||| Pattern.NarrowOps⟩,
  ⟨"halide.hexagon.mpy.vh.h", mulE wild_i32x (bc wild_i32), Pattern.InterleaveResult ||| Pattern.NarrowOps⟩,
  ⟨"halide.hexagon.mpy.vub.vub", mulE wild_u16x wild_u16x, Pattern.InterleaveResult ||| Pattern.NarrowOps⟩,
  ⟨"halide.hexagon.mpy.vuh.vuh", mulE wild_u32x wild_u32x, Pattern.InterleaveResult ||| Pattern.NarrowOps⟩,
  ⟨"halide.hexagon.mpy.vb.vb", mulE wild_i16x wild_i16x, Pattern.InterleaveResult ||| Pattern.NarrowOps⟩,
  ⟨"halide.hexagon.mpy.vh.vh", mulE wild_i32x wild_i32x, Pattern.InterleaveResult ||| Pattern.NarrowOps⟩,
  ⟨"halide.hexagon.mpy.vub.vb", mulE wild_i16x wild_i16x, Pattern.InterleaveResult ||| Pattern.NarrowUnsignedOp0 ||| Pattern.NarrowOp1⟩,
  ⟨"halide.hexagon.mpy.vh.vuh", mulE wild_i32x wild_i32x, Pattern.InterleaveResult ||| Pattern.NarrowOp0 ||| Pattern.NarrowUnsignedOp1⟩]

/-- `ReinterleaveOp0` from the source: interleave the result and
deinterleave operand 0. -/
def ReinterleaveOp0 : Nat := Pattern.InterleaveResult ||| Pattern.DeinterleaveOp0

/-- The add pattern table, transcribed in declaration order. -/
def adds : List Pattern := [
  ⟨"halide.hexagon.add_shr.vw.vw.w", addE wild_i32x (shrE wild_i32x (bc wild_i32)), 0⟩,
  ⟨"halide.hexagon.add_shl.vw.vw.w", addE wild_i32x (shlE wild_i32x (bc wild_i32)), 0⟩,
  ⟨"halide.hexagon.add_shl.vw.vw.w", addE wild_u32x (shlE wild_u32x (bc wild_u32)), 0⟩,
  ⟨"halide.hexagon.add_shr.vw.vw.w", addE wild_i32x (divE wild_i32x (bc wild_i32)), Pattern.ExactLog2Op2⟩,
  ⟨"halide.hexagon.add_shl.vw.vw.w", addE wild_i32x (mulE wild_i32x (bc wild_i32)), Pattern.ExactLog2Op2⟩,
  ⟨"halide.hexagon.add_shl.vw.vw.w", addE wild_u32x (mulE wild_u32x (bc wild_u32)), Pattern.ExactLog2Op2⟩,
  ⟨"halide.hexagon.add_shl.vw.vw.w", addE wild_i32x (mulE (bc wild_i32) wild_i32x), Pattern.ExactLog2Op1 ||| Pattern.SwapOps12⟩,
  ⟨"halide.hexagon.add_shl.vw.vw.w", addE wild_u32x (mulE (bc wild_u32) wild_u32x), Pattern.ExactLog2Op1 ||| Pattern.SwapOps12⟩,
  ⟨"halide.hexagon.add_mpy.vuh.vub.ub", addE wild_u16x (mulE wild_u16x (bc wild_u16)), ReinterleaveOp0 ||| Pattern.NarrowOp1 ||| Pattern.NarrowOp2⟩,
  ⟨"halide.hexagon.add_mpy.vh.vub.b", addE wild_i16x (mulE wild_i16x (bc wild_i16)), ReinterleaveOp0 ||| Pattern.NarrowUnsignedOp1 ||| Pattern.NarrowOp2⟩,
  ⟨"halide.hexagon.add_mpy.vuw.vuh.uh", addE wild_u32x (mulE wild_u32x (bc wild_u32)), ReinterleaveOp0 ||| Pattern.NarrowOp1 ||| Pattern.NarrowOp2⟩,
  ⟨"halide.hexagon.add_mpy.vuh.vub.ub", addE wild_u16x (mulE (bc wild_u16) wild_u16x), ReinterleaveOp0 ||| Pattern.NarrowOp1 ||| Pattern.NarrowOp2 ||| Pattern.SwapOps12⟩,
  ⟨"halide.hexagon.add_mpy.vh.vub.b", addE wild_i16x (mulE (bc wild_i16) wild_i16x), ReinterleaveOp0 ||| Pattern.NarrowOp1 ||| Pattern.NarrowUnsignedOp2 ||| Pattern.SwapOps12⟩,
  ⟨"halide.hexagon.add_mpy.vuw.vuh.uh", addE wild_u32x (mulE (bc wild_u32) wild_u32x), ReinterleaveOp0 ||| Pattern.NarrowOp1 ||| Pattern.NarrowOp2 ||| Pattern.SwapOps12⟩,
  ⟨"halide.hexagon.satw_add_mpy.vw.vh.h", addE wild_i32x (mulE wild_i32x (bc wild_i32)), ReinterleaveOp0 ||| Pattern.NarrowOp1 ||| Pattern.NarrowOp2⟩,
  ⟨"halide.hexagon.satw_add_mpy.vw.vh.h", addE wild_i32x (mulE (bc wild_i32) wild_i32x), ReinterleaveOp0 ||| Pattern.NarrowOp1 ||| Pattern.NarrowOp2 ||| Pattern.SwapOps12⟩,
  ⟨"halide.hexagon.add_mul.vh.vh.b", addE wild_i16x (mulE wild_i16x (bc wild_i16)), Pattern.NarrowOp2⟩,
  ⟨"halide.hexagon.add_mul.vw.vw.h", addE wild_i32x (mulE wild_i32x (bc wild_i32)), Pattern.NarrowOp2⟩,
  ⟨"halide.hexagon.add_mul.vh.vh.b", addE wild_i16x (mulE (bc wild_i16) wild_i16x), Pattern.NarrowOp1 ||| Pattern.SwapOps12⟩,
  ⟨"halide.hexagon.add_mul.vw.vw.h", addE wild_i32x (mulE (bc wild_i32) wild_i32x), Pattern.NarrowOp1 ||| Pattern.SwapOps12⟩,
  ⟨"halide.hexagon.add_mpy.vuh.vub.vub", addE wild_u16x (mulE wild_u16x wild_u16x), ReinterleaveOp0 ||| Pattern.NarrowOp1 ||| Pattern.NarrowOp2⟩,
  ⟨"halide.hexagon.add_mpy.vuw.vuh.vuh", addE wild_u32x (mulE wild_u32x wild_u32x), ReinterleaveOp0 ||| Pattern.NarrowOp1 ||| Pattern.NarrowOp2⟩,
  ⟨"halide.hexagon.add_mpy.vh.vb.vb", addE wild_i16x (mulE wild_i16x wild_i16x), ReinterleaveOp0 ||| Pattern.NarrowOp1 ||| Pattern.NarrowOp2⟩,
  ⟨"halide.hexagon.add_mpy.vw.vh.vh", addE wild_i32x (mulE wild_i32x wild_i32x), ReinterleaveOp0 ||| Pattern.NarrowOp1 ||| Pattern.NarrowOp2⟩,
  ⟨"halide.hexagon.add_mpy.vh.vub.vb", addE wild_i16x (mulE wild_i16x wild_i16x), ReinterleaveOp0 ||| Pattern.NarrowUnsignedOp1 ||| Pattern.NarrowOp2⟩,
  ⟨"halide.hexagon.add_mpy.vw.vh.vuh", addE wild_i32x (mulE wild_i32x wild_i32x), ReinterleaveOp0 ||| Pattern.NarrowOp1 ||| Pattern.NarrowUnsignedOp2⟩,
  ⟨"halide.hexagon.add_mpy.vh.vub.vb", addE wild_i16x (mulE wild_i16x wild_i16x), ReinterleaveOp0 ||| Pattern.NarrowOp1 ||| Pattern.NarrowUnsignedOp2 ||| Pattern.SwapOps12⟩,
  ⟨"halide.hexagon.add_mpy.vw.vh.vuh", addE wild_i32x (mulE wild_i32x wild_i32x), ReinterleaveOp0 ||| Pattern.NarrowUnsignedOp1 ||| Pattern.NarrowOp2 ||| Pattern.SwapOps12⟩,
  ⟨"halide.hexagon.add_mul.vh.vh.vh", addE wild_i16x (mulE wild_i16x wild_i16x), 0⟩]

/-! ### The structural matcher and the other external collaborators -/

/-- Modelled from the spec: type compatibility used by the structural
matcher — element kind and bit width must agree, and a template lane count
of 0 matches any candidate lane count. -/
def types_match (pt et : Ty) : Bool :=
  pt.code == et.code && pt.bits == et.bits && (pt.lanes == 0 || pt.lanes == et.lanes)

mutual
/-- Modelled from the spec: the structural matcher.  Walks the template
depth-first left-to-right; a wildcard leaf (a variable named `*`) binds the
candidate sub-expression when the type-shapes are compatible, appending it
to the positional bindings. -/
def expr_match_go : Expr → Expr → List Expr → Option (List Expr)
  | .var t n, e, acc =>
    if n == "*" then
      if types_match t e.ty then some (acc ++ [e]) else none
    else
      match e with
      | .var t2 n2 => if t == t2 && n == n2 then some acc else none
      | _ => none
  | .intImm t v, e, acc =>
    match e with
    | .intImm t2 v2 => if types_match t t2 && v == v2 then some acc else none
    | _ => none
  | .cast t p, e, acc =>
    match e with
    | .cast t2 v => if types_match t t2 then expr_match_go p v acc else none
    | _ => none
  | .add pa pb, e, acc =>
    match e with
    | .add a b => do expr_match_go pb b (← expr_match_go pa a acc)
    | _ => none
  | .sub pa pb, e, acc =>
    match e with
    | .sub a b => do expr_match_go pb b (← expr_match_go pa a acc)
    | _ => none
  | .mul pa pb, e, acc =>
    match e with
    | .mul a b => do expr_match_go pb b (← expr_match_go pa a acc)
    | _ => none
  | .div pa pb, e, acc =>
    match e with
    | .div a b => do expr_match_go pb b (← expr_match_go pa a acc)
    | _ => none
  | .min pa pb, e, acc =>
    match e with
    | .min a b => do expr_match_go pb b (← expr_match_go pa a acc)
    | _ => none
  | .max pa pb, e, acc =>
    match e with
    | .max a b => do expr_match_go pb b (← expr_match_go pa a acc)
    | _ => none
  | .broadcast pv pl, e, acc =>
    match e with
    | .broadcast v l => if pl == 0 || pl == l then expr_match_go pv v acc else none
    | _ => none
  | .call t n args ct, e, acc =>
    match e with
    | .call t2 n2 args2 ct2 =>
      if n == n2 && ct == ct2 && types_match t t2 then
        expr_match_go_list args args2 acc
      else none
    | _ => none
  | _, _, _ => none

/-- Match the argument lists of two call nodes position by position. -/
def expr_match_go_list : ExprList → ExprList → List Expr → Option (List Expr)
  | .nil, .nil, acc => some acc
  | .cons p ps, .cons e es, acc => do expr_match_go_list ps es (← expr_match_go p e acc)
  | _, _, _ => none
end

/-- Modelled from the spec: `expr_match` — match a wildcard template against
a candidate, returning the positional bindings on success. -/
def expr_match (p x : Expr) : Option (List Expr) := expr_match_go p x []

/-- Can values of type `s` always be represented exactly at type `t`?
Modelled from the spec's lossless-cast query: widening within the same
element kind, or unsigned into a strictly wider signed type. -/
def can_represent (t s : Ty) : Bool :=
  t.lanes == s.lanes &&
    ((t.code == s.code && s.bits ≤ t.bits) ||
     (t.code == .int && s.code == .uint && s.bits < t.bits))

/-- Does the integer value fit in the given scalar type's range? -/
def int_fits (t : Ty) (v : Int) : Bool :=
  match t.code with
  | .int => decide (-((2 : Int) ^ (t.bits - 1)) ≤ v ∧ v < (2 : Int) ^ (t.bits - 1))
  | .uint => decide (0 ≤ v ∧ v < (2 : Int) ^ t.bits)
  | .float => false

/-- Modelled from the spec: the lossless-cast query — returns a
provably-equal-value expression of the target type, or an absent result.
Immediates convert when they fit, broadcasts convert elementwise, a cast
peels away when the target can represent the inner operand's type. -/
def lossless_cast (t : Ty) (e : Expr) : Option Expr :=
  if e.ty == t then some e
  else if can_represent t e.ty then some (castTo t e)
  else
    match e with
    | .intImm _ v => if t.lanes == 1 && int_fits t v then some (.intImm t v) else none
    | .broadcast v l =>
      if t.lanes == l then (lossless_cast t.scalarOf v).map (.broadcast · l) else none
    | .cast _ inner => if can_represent t inner.ty then some (castTo t inner) else none
    | _ => none

/-- Exact log base 2 of a positive natural number, fuelled by the number
itself so that the recursion is structural and evaluates by reduction. -/
def pow2_log : Nat → Nat → Option Nat
  | _, 1 => some 0
  | 0, _ => none
  | fuel + 1, n =>
    if n % 2 == 0 && n != 0 then (pow2_log fuel (n / 2)).map (· + 1) else none

/-- Modelled from the spec: the compile-time power-of-two predicate,
looking through broadcasts and casts; returns the exact log base 2. -/
def is_const_power_of_two_integer : Expr → Option Nat
  | .intImm _ v => if 0 < v then pow2_log v.toNat v.toNat else none
  | .broadcast v _ => is_const_power_of_two_integer v
  | .cast _ v => is_const_power_of_two_integer v
  | _ => none

mutual
/-- Modelled from the spec: `expr_uses_var` — does the expression reference
the named variable (free occurrence, respecting let shadowing)? -/
def expr_uses_var : Expr → String → Bool
  | .intImm _ _, _ => false
  | .var _ m, n => m == n
  | .cast _ v, n => expr_uses_var v n
  | .add a b, n | .sub a b, n | .mul a b, n | .div a b, n | .mod a b, n
  | .min a b, n | .max a b, n | .eq a b, n | .ne a b, n | .lt a b, n
  | .le a b, n | .gt a b, n | .ge a b, n | .and a b, n | .or a b, n =>
    expr_uses_var a n || expr_uses_var b n
  | .not a, n => expr_uses_var a n
  | .select c t f, n => expr_uses_var c n || expr_uses_var t n || expr_uses_var f n
  | .let_ m v b, n => expr_uses_var v n || (m != n && expr_uses_var b n)
  | .broadcast v _, n => expr_uses_var v n
  | .ramp b s _, n => expr_uses_var b n || expr_uses_var s n
  | .load _ _ i, n => expr_uses_var i n
  | .call _ _ args _, n => expr_list_uses_var args n

/-- Does any expression of the argument list reference the variable? -/
def expr_list_uses_var : ExprList → String → Bool
  | .nil, _ => false
  | .cons e es, n => expr_uses_var e n || expr_list_uses_var es n
end

mutual
/-- Modelled from the spec: the template-substitution utility — replace
every free occurrence of the named variable by the given expression,
respecting let shadowing. -/
def substituteE (n : String) (r : Expr) : Expr → Expr
  | .intImm t v => .intImm t v
  | .var t m => if m == n then r else .var t m
  | .cast t v => .cast t (substituteE n r v)
  | .add a b => .add (substituteE n r a) (substituteE n r b)
  | .sub a b => .sub (substituteE n r a) (substituteE n r b)
  | .mul a b => .mul (substituteE n r a) (substituteE n r b)
  | .div a b => .div (substituteE n r a) (substituteE n r b)
  | .mod a b => .mod (substituteE n r a) (substituteE n r b)
  | .min a b => .min (substituteE n r a) (substituteE n r b)
  | .max a b => .max (substituteE n r a) (substituteE n r b)
  | .eq a b => .eq (substituteE n r a) (substituteE n r b)
  | .ne a b => .ne (substituteE n r a) (substituteE n r b)
  | .lt a b => .lt (substituteE n r a) (substituteE n r b)
  | .le a b => .le (substituteE n r a) (substituteE n r b)
  | .gt a b => .gt (substituteE n r a) (substituteE n r b)
  | .ge a b => .ge (substituteE n r a) (substituteE n r b)
  | .and a b => .and (substituteE n r a) (substituteE n r b)
  | .or a b => .or (substituteE n r a) (substituteE n r b)
  | .not a => .not (substituteE n r a)
  | .select c t f => .select (substituteE n r c) (substituteE n r t) (substituteE n r f)
  | .let_ m v b => .let_ m (substituteE n r v) (if m == n then b else substituteE n r b)
  | .broadcast v l => .broadcast (substituteE n r v) l
  | .ramp b s l => .ramp (substituteE n r b) (substituteE n r s) l
  | .load t m i => .load t m (substituteE n r i)
  | .call t m args ct => .call t m (substituteE_list n r args) ct

/-- Substitute through an argument list. -/
def substituteE_list (n : String) (r : Expr) : ExprList → ExprList
  | .nil => .nil
  | .cons e es => .cons (substituteE n r e) (substituteE_list n r es)
end

mutual
/-- Mirrors the `WithLanes` mutator: rewrite casts, variables and
broadcasts whose lane count differs from the requested one. -/
def wl_mutate (l : Nat) : Expr → Expr
  | .cast t v => if t.lanes != l then .cast (t.with_lanes l) (wl_mutate l v)
      else .cast t (wl_mutate l v)
  | .var t n => if t.lanes != l then .var (t.with_lanes l) n else .var t n
  | .broadcast v l2 => if l2 != l then .broadcast v l else .broadcast (wl_mutate l v) l2
  | .intImm t v => .intImm t v
  | .add a b => .add (wl_mutate l a) (wl_mutate l b)
  | .sub a b => .sub (wl_mutate l a) (wl_mutate l b)
  | .mul a b => .mul (wl_mutate l a) (wl_mutate l b)
  | .div a b => .div (wl_mutate l a) (wl_mutate l b)
  | .mod a b => .mod (wl_mutate l a) (wl_mutate l b)
  | .min a b => .min (wl_mutate l a) (wl_mutate l b)
  | .max a b => .max (wl_mutate l a) (wl_mutate l b)
  | .eq a b => .eq (wl_mutate l a) (wl_mutate l b)
  | .ne a b => .ne (wl_mutate l a) (wl_mutate l b)
  | .lt a b => .lt (wl_mutate l a) (wl_mutate l b)
  | .le a b => .le (wl_mutate l a) (wl_mutate l b)
  | .gt a b => .gt (wl_mutate l a) (wl_mutate l b)
  | .ge a b => .ge (wl_mutate l a) (wl_mutate l b)
  | .and a b => .and (wl_mutate l a) (wl_mutate l b)
  | .or a b => .or (wl_mutate l a) (wl_mutate l b)
  | .not a => .not (wl_mutate l a)
  | .select c t f => .select (wl_mutate l c) (wl_mutate l t) (wl_mutate l f)
  | .let_ m v b => .let_ m (wl_mutate l v) (wl_mutate l b)
  | .ramp b s l2 => .ramp (wl_mutate l b) (wl_mutate l s) l2
  | .load t m i => .load t m (wl_mutate l i)
  | .call t m args ct => .call t m (wl_mutate_list l args) ct

/-- `WithLanes` over an argument list. -/
def wl_mutate_list (l : Nat) : ExprList → ExprList
  | .nil => .nil
  | .cons e es => .cons (wl_mutate l e) (wl_mutate_list l es)
end

/-- Mirrors `with_lanes` from the source. -/
def with_lanes (x : Expr) (l : Nat) : Expr := wl_mutate l x

/-- Modelled from the spec: the algebraic simplifier, restricted to the
constant folding the translated passes rely on (integer add, subtract,
multiply, min, max, compare and in-range casts; other node kinds are left
untouched). -/
def simp_e : Expr → Expr
  | .add a b =>
    match simp_e a, simp_e b with
    | .intImm t x, .intImm _ y => .intImm t (x + y)
    | a', b' => .add a' b'
  | .sub a b =>
    match simp_e a, simp_e b with
    | .intImm t x, .intImm _ y => .intImm t (x - y)
    | a', b' => .sub a' b'
  | .mul a b =>
    match simp_e a, simp_e b with
    | .intImm t x, .intImm _ y => .intImm t (x * y)
    | a', b' => .mul a' b'
  | .min a b =>
    match simp_e a, simp_e b with
    | .intImm t x, .intImm _ y => .intImm t (Min.min x y)
    | a', b' => .min a' b'
  | .max a b =>
    match simp_e a, simp_e b with
    | .intImm t x, .intImm _ y => .intImm t (Max.max x y)
    | a', b' => .max a' b'
  | .lt a b =>
    match simp_e a, simp_e b with
    | .intImm _ x, .intImm _ y => .intImm (boolTy 1) (if x < y then 1 else 0)
    | a', b' => .lt a' b'
  | .cast t v =>
    match simp_e v with
    | .intImm _ x => if t.is_scalar && int_fits t x then .intImm t x else .cast t (.intImm (simp_e v).ty x)
    | v' => .cast t v'
  | .broadcast v l => .broadcast (simp_e v) l
  | e => e

/-- Modelled from the spec: `is_one`, looking through broadcasts. -/
def is_one : Expr → Bool
  | .intImm _ v => v == 1
  | .broadcast v _ => is_one v
  | _ => false

/-- Modelled from the spec: `as_const_int`, looking through broadcasts. -/
def as_const_int : Expr → Option Int
  | .intImm _ v => some v
  | .broadcast v _ => as_const_int v
  | _ => none

/-- Modelled from the spec: common-subexpression elimination.  CSE is
semantics-preserving and introduces no rewrites relevant to the translated
passes, so it is modelled as the identity. -/
def common_subexpression_elimination (e : Expr) : Expr := e

/-! ### The pattern engine `apply_patterns` -/

/-- The narrowing loop of `apply_patterns`: for each operand index, a
`NarrowOp`/`NarrowUnsignedOp` flag replaces the binding by a lossless cast
to the half-width (optionally unsigned) type; an absent result aborts the
pattern attempt (`none`). -/
def narrow_phase (flags : Nat) : Nat → List Expr → Option (List Expr)
  | _, [] => some []
  | i, m :: rest => do
    let t := m.ty
    let target := t.with_bits (t.bits / 2)
    let m' ←
      if flags.testBit (10 + i) then lossless_cast target m
      else if flags.testBit (15 + i) then lossless_cast (target.with_code .uint) m
      else some m
    let rest' ← narrow_phase flags (i + 1) rest
    some (m' :: rest')

/-- The exact-log2 loop of `apply_patterns`: starting at operand 1, an
`ExactLog2Op` flag requires a compile-time power-of-two constant and
replaces the binding by its log base 2 cast to a one-lane type; otherwise
the attempt is aborted (`none`). -/
def exact_log2_phase (flags : Nat) : Nat → List Expr → Option (List Expr)
  | _, [] => some []
  | i, m :: rest =>
    match
      (if 1 ≤ i ∧ flags.testBit (2 + i) then
        match is_const_power_of_two_integer m with
        | some pow => some (castTo (m.ty.with_lanes 1) (.intImm ⟨.int, 32, 1⟩ pow))
        | none => none
      else some m) with
    | none => none
    | some m' =>
      match exact_log2_phase flags (i + 1) rest with
      | none => none
      | some rest' => some (m' :: rest')

/-- The deinterleave loop of `apply_patterns`: a `DeinterleaveOp` flag
asserts the binding is vector-typed (a fatal error otherwise) and wraps it
in a deinterleave marker. -/
def deinterleave_phase (flags : Nat) : Nat → List Expr → Option (List Expr)
  | _, [] => some []
  | i, m :: rest => do
    let m' ←
      if flags.testBit (5 + i) then
        if m.ty.is_vector then native_deinterleave m else none
      else some m
    let rest' ← deinterleave_phase flags (i + 1) rest
    some (m' :: rest')

/-- The swap steps of `apply_patterns`: `SwapOps01` / `SwapOps12` exchange
bindings, asserting (fatally) that enough bindings exist. -/
def swap_phase (flags : Nat) (ms : List Expr) : Option (List Expr) := do
  let ms1 ←
    if flags.testBit 1 then
      match ms with
      | a :: b :: rest => some (b :: a :: rest)
      | _ => none
    else some ms
  if flags.testBit 2 then
    match ms1 with
    | a :: b :: c :: rest => some (a :: c :: b :: rest)
    | _ => none
  else some ms1

/-- Outcome of attempting one pattern of the table against one expression:
no match (fall through to the next pattern), a fatal internal assertion, or
a successful rewrite. -/
inductive PatResult where
  | noMatch
  | fatal
  | success (r : Expr)
  deriving DecidableEq, Repr

/-- The tail of one `apply_patterns` iteration: build the intrinsic call
from the fully processed, mutated operands and interleave the result if the
pattern requests it (a fatal error for an uninterleavable width). -/
def finish_pattern (x : Expr) (p : Pattern) (ms5 : List Expr) : PatResult :=
  if p.flags.testBit 0 then
    match native_interleave (Expr.call x.ty p.intrin (EL ms5) .pureExtern) with
    | none => .fatal
    | some w => .success w
  else .success (Expr.call x.ty p.intrin (EL ms5) .pureExtern)

/-- One iteration of the `apply_patterns` loop: structural match, the
narrowing and exact-log2 phases (whose failures fall through to the next
pattern), the deinterleave and swap phases (whose failures are fatal),
recursive mutation of the surviving operands, and construction of the
intrinsic call, interleaved if the pattern requests it. -/
def try_pattern (m : Expr → Option Expr) (x : Expr) (p : Pattern) : PatResult :=
  match expr_match p.pattern x with
  | none => .noMatch
  | some ms =>
    match narrow_phase p.flags 0 ms with
    | none => .noMatch
    | some ms1 =>
      match exact_log2_phase p.flags 0 ms1 with
      | none => .noMatch
      | some ms2 =>
        match deinterleave_phase p.flags 0 ms2 with
        | none => .fatal
        | some ms3 =>
          match swap_phase p.flags ms3 with
          | none => .fatal
          | some ms4 =>
            match ms4.mapM m with
            | none => .fatal
            | some ms5 => finish_pattern x p ms5

/-- Mirrors `apply_patterns`: scan the table in declaration order; the
first pattern whose attempt succeeds produces the result; a fatal
assertion aborts; if no pattern applies the input is returned unchanged. -/
def apply_patterns (x : Expr) (patterns : List Pattern) (m : Expr → Option Expr) : Option Expr :=
  match patterns with
  | [] => some x
  | p :: rest =>
    match try_pattern m x p with
    | .noMatch => apply_patterns x rest m
    | .fatal => none
    | .success r => some r

/-! ### The instruction selector `OptimizePatterns` -/

/-- Modelled from the spec: the negative-and-negatable constant predicate
(the negation must be representable in the same type), looking through
broadcasts. -/
def is_negative_negatable_const : Expr → Bool
  | .intImm t v => decide (v < 0) && int_fits t (-v)
  | .broadcast v _ => is_negative_negatable_const v
  | _ => false

/-- Modelled from the spec: the positive-constant predicate, looking
through broadcasts. -/
def is_positive_const : Expr → Bool
  | .intImm _ v => decide (0 < v)
  | .broadcast v _ => is_positive_const v
  | _ => false

/-- Modelled from the spec: the simplifier applied to the negation of a
constant (the only use the source makes of `simplify(-x)`). -/
def negate_const : Expr → Expr
  | .intImm t v => .intImm t (-v)
  | .broadcast v l => .broadcast (negate_const v) l
  | e => .sub (make_const e.ty 0) e

/-- Mirrors `lossless_negate`: negate a product by negating one negatable
factor (trying the left factor first), or negate a negatable constant;
otherwise return an absent result (`none`), never a fabricated value. -/
def lossless_negate : Expr → Option Expr
  | .mul a b =>
    match lossless_negate a with
    | some a' => some (.mul a' b)
    | none =>
      match lossless_negate b with
      | some b' => some (.mul a b')
      | none =>
        if is_negative_negatable_const (.mul a b) || is_positive_const (.mul a b) then
          some (negate_const (.mul a b))
        else none
  | x =>
    if is_negative_negatable_const x || is_positive_const x then some (negate_const x)
    else none

/-- The spec's description of when a subtrahend is provably losslessly
negatable, written from the spec's words for comparison with
`lossless_negate`: "a negatable constant, or a product with a negatable
factor". -/
def negatable_spec : Expr → Bool
  | .mul a b =>
    negatable_spec a || negatable_spec b ||
      (is_negative_negatable_const (.mul a b) || is_positive_const (.mul a b))
  | x => is_negative_negatable_const x || is_positive_const x

/-- The generic `IRMutator::visit` fallback: rebuild the node from its
recursively mutated children, propagating a fatal error from any child. -/
def map_children (m : Expr → Option Expr) : Expr → Option Expr
  | .intImm t v => some (.intImm t v)
  | .var t n => some (.var t n)
  | .cast t v => do some (.cast t (← m v))
  | .add a b => do some (.add (← m a) (← m b))
  | .sub a b => do some (.sub (← m a) (← m b))
  | .mul a b => do some (.mul (← m a) (← m b))
  | .div a b => do some (.div (← m a) (← m b))
  | .mod a b => do some (.mod (← m a) (← m b))
  | .min a b => do some (.min (← m a) (← m b))
  | .max a b => do some (.max (← m a) (← m b))
  | .eq a b => do some (.eq (← m a) (← m b))
  | .ne a b => do some (.ne (← m a) (← m b))
  | .lt a b => do some (.lt (← m a) (← m b))
  | .le a b => do some (.le (← m a) (← m b))
  | .gt a b => do some (.gt (← m a) (← m b))
  | .ge a b => do some (.ge (← m a) (← m b))
  | .and a b => do some (.and (← m a) (← m b))
  | .or a b => do some (.or (← m a) (← m b))
  | .not a => do some (.not (← m a))
  | .select c t f => do some (.select (← m c) (← m t) (← m f))
  | .let_ n v b => do some (.let_ n (← m v) (← m b))
  | .broadcast v l => do some (.broadcast (← m v) l)
  | .ramp b s l => do some (.ramp (← m b) (← m s) l)
  | .load t n i => do some (.load t n (← m i))
  | .call t n args ct => do some (.call t n (← args.mapM m) ct)

/-- The double-cast rewrite table of `OptimizePatterns::visit(const Cast*)`,
in declaration order. -/
def cast_rewrites : List (Expr × Expr) := [
  (u8c wild_u32x, u8c (u16c wild_u32x)),
  (u8c wild_i32x, u8c (i16c wild_i32x)),
  (i8c wild_u32x, i8c (u16c wild_u32x)),
  (i8c wild_i32x, i8c (i16c wild_i32x)),
  (u8 wild_u32x, u8 (u16 wild_u32x)),
  (u8 wild_i32x, u8 (i16 wild_i32x)),
  (i8 wild_u32x, i8 (u16 wild_u32x)),
  (i8 wild_i32x, i8 (i16 wild_i32x)),
  (u32 wild_u8x, u32 (u16 wild_u8x)),
  (u32 wild_i8x, u32 (i16 wild_i8x)),
  (i32 wild_u8x, i32 (u16 wild_u8x)),
  (i32 wild_i8x, i32 (i16 wild_i8x))]

/-- Find the first double-cast rewrite whose template matches, returning
the replacement template and the single wildcard binding. -/
def find_cast_rewrite (x : Expr) : List (Expr × Expr) → Option (Expr × Expr)
  | [] => none
  | (f, s) :: rest =>
    match expr_match f x with
    | some (m0 :: _) => some (s, m0)
    | _ => find_cast_rewrite x rest

/-- One attempt of the direct `max(clz(x), clz(~x))` rewrite: on a
structural match with structurally equal bindings, produce the
leading-sign-count intrinsic call plus one. -/
def cls_try (t : Ty) (e : Expr) (intrin : String) (tpl : Expr) : Option Expr :=
  match expr_match tpl e with
  | some (m0 :: m1 :: _) =>
    if m0 == m1 then
      some (.add (.call t intrin (EL [m0]) .pureExtern) (make_const t 1))
    else none
  | _ => none

/-- The two width-keyed `cls` templates of `OptimizePatterns::visit(const
Max*)`, tried in order. -/
def max_cls_rewrite (t : Ty) (e : Expr) : Option Expr :=
  match cls_try t e "halide.hexagon.cls.vh" (.max (clz wild_i16x) (clz (bnot wild_i16x))) with
  | some r => some r
  | none => cls_try t e "halide.hexagon.cls.vw" (.max (clz wild_i32x) (clz (bnot wild_i32x)))

/-- Mirrors the `OptimizePatterns` tree pass.  The C++ recursion is bounded
by the IR tree depth; here every recursive call consumes one unit of fuel,
and exhausted fuel returns the expression unchanged, so any theorem about
the pass quantifies over (or instantiates) a sufficient fuel. -/
def op_mutate : Nat → Expr → Option Expr
  | 0, x => some x
  | fuel + 1, x =>
    match x with
    | .mul a b =>
      if x.ty.is_vector then
        match apply_patterns x muls (op_mutate fuel) with
        | none => none
        | some r =>
          if r != x then some r
          else
            match apply_patterns (.mul b a) muls (op_mutate fuel) with
            | none => none
            | some r2 =>
              if r2 != Expr.mul b a then some r2 else map_children (op_mutate fuel) x
      else map_children (op_mutate fuel) x
    | .add a b =>
      if x.ty.is_vector then
        match apply_patterns x adds (op_mutate fuel) with
        | none => none
        | some r =>
          if r != x then some r
          else
            match apply_patterns (.add b a) adds (op_mutate fuel) with
            | none => none
            | some r2 =>
              if r2 != Expr.add b a then some r2 else map_children (op_mutate fuel) x
      else map_children (op_mutate fuel) x
    | .sub a b =>
      if x.ty.is_vector then
        match lossless_negate b with
        | some nb =>
          match apply_patterns (.add a nb) adds (op_mutate fuel) with
          | none => none
          | some r =>
            if r != Expr.add a nb then some r
            else
              match apply_patterns (.add nb a) adds (op_mutate fuel) with
              | none => none
              | some r2 =>
                if r2 != Expr.add nb a then some r2 else map_children (op_mutate fuel) x
        | none => map_children (op_mutate fuel) x
      else map_children (op_mutate fuel) x
    | .max _ _ => do
      let e ← map_children (op_mutate fuel) x
      if x.ty.is_vector then
        match max_cls_rewrite x.ty e with
        | some r => some r
        | none => some e
      else some e
    | .cast t _ =>
      if x.ty.is_vector then
        match apply_patterns x casts (op_mutate fuel) with
        | none => none
        | some r =>
          if r != x then some r
          else
            match find_cast_rewrite x cast_rewrites with
            | some (s, m0) => op_mutate fuel (substituteE "*" m0 (with_lanes s t.lanes))
            | none => map_children (op_mutate fuel) x
      else map_children (op_mutate fuel) x
    | _ => map_children (op_mutate fuel) x

/-! ### The interleave eliminator `EliminateInterleaves`

The `Scope<bool> vars` member is represented by the list of shadow
(deinterleaved) names currently in scope. -/

/-- Is the expression literally a broadcast node? -/
def is_broadcast : Expr → Bool
  | .broadcast _ _ => true
  | _ => false

/-- Mirrors `EliminateInterleaves::yields_interleave`: literally an
interleave marker, a scalar, a broadcast, or a variable with an in-scope
deinterleaved shadow. -/
def yields_interleave (vars : List String) (x : Expr) : Bool :=
  if is_native_interleave x then true
  else if x.ty.is_scalar || is_broadcast x then true
  else
    match x with
    | .var _ n => vars.contains (n ++ ".deinterleaved")
    | _ => false

/-- The loop of `yields_removable_interleave`, carrying the
"some operand is literally an interleave" accumulator. -/
def yri_go (vars : List String) (any : Bool) : List Expr → Bool
  | [] => any
  | i :: rest =>
    if is_native_interleave i then yri_go vars true rest
    else if !yields_interleave vars i then false
    else yri_go vars any rest

/-- Mirrors `yields_removable_interleave`: at least one expression is an
interleave marker and every expression yields an interleave. -/
def yields_removable_interleave (vars : List String) (exprs : List Expr) : Bool :=
  yri_go vars false exprs

/-- Mirrors `remove_interleave`: strip a literal marker, pass a scalar or
broadcast through, rewrite a shadowed variable to its shadow (asserting the
shadow is in scope), and fail fatally on anything else. -/
def remove_interleave (vars : List String) (x : Expr) : Option Expr :=
  if is_native_interleave x then
    match x with
    | .call _ _ (.cons a _) _ => some a
    | _ => none
  else if x.ty.is_scalar || is_broadcast x then some x
  else
    match x with
    | .var t n =>
      if vars.contains (n ++ ".deinterleaved") then some (.var t (n ++ ".deinterleaved"))
      else none
    | _ => none

/-- Does every vector argument share the result's bit width and lane
count? -/
def args_shape_ok (t : Ty) : ExprList → Bool
  | .nil => true
  | .cons i rest =>
    (i.ty.is_scalar || (i.ty.bits == t.bits && i.ty.lanes == t.lanes)) && args_shape_ok t rest

/-- Mirrors `EliminateInterleaves::is_interleavable`: a fixed allow-list is
always transparent, the marker intrinsics never are, any other hexagon
intrinsic is transparent when every vector operand matches the result
shape, and every non-hexagon call is transparent. -/
def is_interleavable (t : Ty) (n : String) (args : ExprList) : Bool :=
  if n == "bitwise_and" || n == "bitwise_not" || n == "bitwise_xor" || n == "bitwise_or" ||
      n == "shift_left" || n == "shift_right" || n == "abs" || n == "absd" then true
  else if n == "halide.hexagon.interleave.vb" || n == "halide.hexagon.interleave.vh" ||
      n == "halide.hexagon.interleave.vw" || n == "halide.hexagon.deinterleave.vb" ||
      n == "halide.hexagon.deinterleave.vh" || n == "halide.hexagon.deinterleave.vw" then false
  else if starts_with n "halide.hexagon." then args_shape_ok t args
  else true

/-- The dual-form substitution table: pack (narrowing) intrinsics and their
self-interleaving alternatives, with any fixed extra arguments. -/
def deinterleaving_alts (n : String) : Option (String × List Expr) :=
  if n == "halide.hexagon.pack.vh" then some ("halide.hexagon.trunc.vh", [])
  else if n == "halide.hexagon.pack.vw" then some ("halide.hexagon.trunc.vw", [])
  else if n == "halide.hexagon.pack_satub.vh" then some ("halide.hexagon.trunc_satub.vh", [])
  else if n == "halide.hexagon.pack_sath.vw" then some ("halide.hexagon.trunc_sath.vw", [])
  else if n == "halide.hexagon.pack_satuh.vw" then
    some ("halide.hexagon.trunc_satuh_shr.vw.w", [.intImm ⟨.int, 32, 1⟩ 0])
  else none

/-- The pointwise-binary rule (`visit_binary`) applied to already-mutated
operands: pull a removable interleave out of the operands and re-wrap the
rebuilt node in a single marker. -/
def ei_binary_combine (vars : List String) (mk : Expr → Expr → Expr) (a b : Expr) :
    Option Expr :=
  if yields_removable_interleave vars [a, b] then do
    let a' ← remove_interleave vars a
    let b' ← remove_interleave vars b
    native_interleave (mk a' b')
  else some (mk a b)

/-- The call rule (`visit(const Call*)`) applied to already-mutated
arguments: cancellation of a deinterleave against an argument that yields
an interleave, transparency for interleavable calls, and the dual-form
substitution, in that order. -/
def ei_call_combine (vars : List String) (t : Ty) (n : String) (origArgs args : ExprList)
    (ct : CallType) : Option Expr :=
  let argsL := args.toList
  if is_native_deinterleave (.call t n args ct) &&
      (match args.head? with
       | some a0 => yields_interleave vars a0
       | none => false) then
    match args.head? with
    | some a0 => remove_interleave vars a0
    | none => none
  else if is_interleavable t n origArgs && yields_removable_interleave vars argsL then do
    let stripped ← args.mapM (remove_interleave vars)
    native_interleave (.call t n stripped ct)
  else
    match deinterleaving_alts n with
    | some (alt, extra) =>
      if yields_removable_interleave vars argsL then do
        let stripped ← args.mapM (remove_interleave vars)
        some (.call t alt (stripped.append (EL extra)) ct)
      else some (.call t n args ct)
    | none => some (.call t n args ct)

mutual
/-- Mirrors the `EliminateInterleaves` tree pass.  `none` models a fatal
internal assertion (a value that should yield an interleave but does not, a
marker of an unsupported width, or a dropped let whose name was still
referenced). -/
def ei_mutate (vars : List String) : Expr → Option Expr
  | .intImm t v => some (.intImm t v)
  | .var t n => some (.var t n)
  | .cast t v =>
    if t.bits == v.ty.bits then do
      let v' ← ei_mutate vars v
      if is_native_interleave v' then do
        let v'' ← remove_interleave vars v'
        native_interleave (.cast t v'')
      else some (.cast t v')
    else do
      some (.cast t (← ei_mutate vars v))
  | .add a b => do ei_binary_combine vars Expr.add (← ei_mutate vars a) (← ei_mutate vars b)
  | .sub a b => do ei_binary_combine vars Expr.sub (← ei_mutate vars a) (← ei_mutate vars b)
  | .mul a b => do ei_binary_combine vars Expr.mul (← ei_mutate vars a) (← ei_mutate vars b)
  | .div a b => do ei_binary_combine vars Expr.div (← ei_mutate vars a) (← ei_mutate vars b)
  | .mod a b => do ei_binary_combine vars Expr.mod (← ei_mutate vars a) (← ei_mutate vars b)
  | .min a b => do ei_binary_combine vars Expr.min (← ei_mutate vars a) (← ei_mutate vars b)
  | .max a b => do ei_binary_combine vars Expr.max (← ei_mutate vars a) (← ei_mutate vars b)
  | .eq a b => do ei_binary_combine vars Expr.eq (← ei_mutate vars a) (← ei_mutate vars b)
  | .ne a b => do ei_binary_combine vars Expr.ne (← ei_mutate vars a) (← ei_mutate vars b)
  | .lt a b => do ei_binary_combine vars Expr.lt (← ei_mutate vars a) (← ei_mutate vars b)
  | .le a b => do ei_binary_combine vars Expr.le (← ei_mutate vars a) (← ei_mutate vars b)
  | .gt a b => do ei_binary_combine vars Expr.gt (← ei_mutate vars a) (← ei_mutate vars b)
  | .ge a b => do ei_binary_combine vars Expr.ge (← ei_mutate vars a) (← ei_mutate vars b)
  | .and a b => do ei_binary_combine vars Expr.and (← ei_mutate vars a) (← ei_mutate vars b)
  | .or a b => do ei_binary_combine vars Expr.or (← ei_mutate vars a) (← ei_mutate vars b)
  | .not a => do
    let a' ← ei_mutate vars a
    if is_native_interleave a' then do
      let a'' ← remove_interleave vars a'
      native_interleave (.not a'')
    else some (.not a')
  | .select c tv fv => do
    let c' ← ei_mutate vars c
    let t' ← ei_mutate vars tv
    let f' ← ei_mutate vars fv
    if yields_removable_interleave vars [c', t', f'] then do
      let c'' ← remove_interleave vars c'
      let t'' ← remove_interleave vars t'
      let f'' ← remove_interleave vars f'
      native_interleave (.select c'' t'' f'')
    else some (.select c' t' f')
  | .let_ n v b => do
    let value ← ei_mutate vars v
    let dname := n ++ ".deinterleaved"
    let body ←
      if is_native_interleave value then ei_mutate (dname :: vars) b
      else ei_mutate vars b
    if value == v && body == b then some (.let_ n v b)
    else if body == b then some (.let_ n value body)
    else
      let du := expr_uses_var body dname
      let iu := expr_uses_var body n
      if du && iu then do
        let d ← remove_interleave vars value
        let inner ← native_interleave (.var d.ty dname)
        some (.let_ dname d (.let_ n inner body))
      else if du then do
        let d ← remove_interleave vars value
        some (.let_ dname d body)
      else if iu then some (.let_ n value body)
      else if expr_uses_var b n then none
      else some body
  | .broadcast v l => do some (.broadcast (← ei_mutate vars v) l)
  | .ramp b s l => do some (.ramp (← ei_mutate vars b) (← ei_mutate vars s) l)
  | .load t n i => do some (.load t n (← ei_mutate vars i))
  | .call t n args ct => do
    let args' ← ei_mutate_list vars args
    ei_call_combine vars t n args args' ct

/-- Mutate every argument of a call node. -/
def ei_mutate_list (vars : List String) : ExprList → Option ExprList
  | .nil => some .nil
  | .cons e es => do some (.cons (← ei_mutate vars e) (← ei_mutate_list vars es))
end

/-- Mirrors `optimize_hexagon_instructions`: instruction selection followed
immediately by interleave elimination. -/
def optimize_hexagon_instructions (fuel : Nat) (s : Expr) : Option Expr := do
  ei_mutate [] (← op_mutate fuel s)

/-! ### The upper-bound helper and the shuffle optimizer -/

/-- The generic traversal fallback for the pure (never-failing) passes. -/
def map_children_p (m : Expr → Expr) : Expr → Expr
  | .intImm t v => .intImm t v
  | .var t n => .var t n
  | .cast t v => .cast t (m v)
  | .add a b => .add (m a) (m b)
  | .sub a b => .sub (m a) (m b)
  | .mul a b => .mul (m a) (m b)
  | .div a b => .div (m a) (m b)
  | .mod a b => .mod (m a) (m b)
  | .min a b => .min (m a) (m b)
  | .max a b => .max (m a) (m b)
  | .eq a b => .eq (m a) (m b)
  | .ne a b => .ne (m a) (m b)
  | .lt a b => .lt (m a) (m b)
  | .le a b => .le (m a) (m b)
  | .gt a b => .gt (m a) (m b)
  | .ge a b => .ge (m a) (m b)
  | .and a b => .and (m a) (m b)
  | .or a b => .or (m a) (m b)
  | .not a => .not (m a)
  | .select c t f => .select (m c) (m t) (m f)
  | .let_ n v b => .let_ n (m v) (m b)
  | .broadcast v l => .broadcast (m v) l
  | .ramp b s l => .ramp (m b) (m s) l
  | .load t n i => .load t n (m i)
  | .call t n args ct => .call t n (map_children_pl m args) ct
where
  /-- Map over an argument list. -/
  map_children_pl (m : Expr → Expr) : ExprList → ExprList
    | .nil => .nil
    | .cons e es => .cons (m e) (map_children_pl m es)

/-- Mirrors the `UpperBound` mutator: at a subtraction, after mutating both
operands, recognize `max(x,k) - max(y,k)` and `min(x,k) - min(y,k)` with
structurally identical `k` and rewrite to the (simplified, re-mutated)
`x - y`.  Fuel replaces the C++ recursion, as in `op_mutate`. -/
def ub_mutate : Nat → Expr → Expr
  | 0, x => x
  | fuel + 1, x =>
    match x with
    | .sub a b =>
      let a' := ub_mutate fuel a
      let b' := ub_mutate fuel b
      match a', b' with
      | .max xa ka, .max xb kb =>
        if ka == kb then ub_mutate fuel (simp_e (.sub xa xb)) else .sub a' b'
      | .min xa ka, .min xb kb =>
        if ka == kb then ub_mutate fuel (simp_e (.sub xa xb)) else .sub a' b'
      | _, _ => .sub a' b'
    | _ => map_children_p (ub_mutate fuel) x

/-- Mirrors `upper_bound`: simplify the `UpperBound` mutation. -/
def upper_bound (fuel : Nat) (x : Expr) : Expr := simp_e (ub_mutate fuel x)

/-- The full range of a scalar integer type, as immediate expressions.
Modelled from the spec: an expression about which nothing is known is
bounded by its type's range. -/
def type_range (t : Ty) : Expr × Expr :=
  match t.code with
  | .int =>
    (.intImm t.scalarOf (-((2 : Int) ^ (t.bits - 1))),
     .intImm t.scalarOf ((2 : Int) ^ (t.bits - 1) - 1))
  | .uint => (.intImm t.scalarOf 0, .intImm t.scalarOf ((2 : Int) ^ t.bits - 1))
  | .float => (.intImm t.scalarOf 0, .intImm t.scalarOf 0)

/-- Modelled from the spec: the bounds-of-expression-in-scope collaborator,
returning a conservative scalar (min, max) interval over the integer
fragment (constants, scoped variables, broadcasts, representable casts,
add/subtract and min/max); every other node kind is bounded by its full
type range. -/
def bounds_of (scope : List (String × (Expr × Expr))) : Expr → Expr × Expr
  | .intImm t v => (.intImm t.scalarOf v, .intImm t.scalarOf v)
  | .var t n =>
    match scope.lookup n with
    | some b => b
    | none => type_range t
  | .broadcast v _ => bounds_of scope v
  | .cast t v =>
    if can_represent t v.ty then
      let b := bounds_of scope v
      (simp_e (.cast t.scalarOf b.1), simp_e (.cast t.scalarOf b.2))
    else type_range t
  | .add a b =>
    let ba := bounds_of scope a
    let bb := bounds_of scope b
    (simp_e (.add ba.1 bb.1), simp_e (.add ba.2 bb.2))
  | .sub a b =>
    let ba := bounds_of scope a
    let bb := bounds_of scope b
    (simp_e (.sub ba.1 bb.2), simp_e (.sub ba.2 bb.1))
  | .min a b =>
    let ba := bounds_of scope a
    let bb := bounds_of scope b
    (simp_e (.min ba.1 bb.1), simp_e (.min ba.2 bb.2))
  | .max a b =>
    let ba := bounds_of scope a
    let bb := bounds_of scope b
    (simp_e (.max ba.1 bb.1), simp_e (.max ba.2 bb.2))
  | e => type_range e.ty

/-- Is the expression literally a ramp node? -/
def is_ramp : Expr → Bool
  | .ramp _ _ _ => true
  | _ => false

/-- The index-span pipeline of `OptimizeShuffles::visit(const Load*)`:
bounds of the index in scope, `max - min`, common-subexpression
elimination, simplification, then widening by the upper-bound helper. -/
def os_index_span (scope : List (String × (Expr × Expr))) (index : Expr) : Expr :=
  let ib := bounds_of scope index
  let span1 := simp_e (common_subexpression_elimination (.sub ib.2 ib.1))
  upper_bound (span1.size + 16) span1

/-- The indirect-load rewrite of `OptimizeShuffles::visit(const Load*)`:
when the index span is provably below 256, replace the load by a contiguous
table load of `span + 1` elements (256 when the span is not a compile-time
constant) from the index's minimum, fed to a four-argument
`dynamic_shuffle` call (table, 8-bit index `original - min`, zero pad,
table length); otherwise keep the (index-mutated) load. -/
def os_load_rewrite (scope : List (String × (Expr × Expr))) (t : Ty) (n : String)
    (index : Expr) : Expr :=
  let ib := bounds_of scope index
  let span := os_index_span scope index
  if is_one (simp_e (.lt span (make_const span.ty 256))) then
    let const_extent : Nat :=
      match as_const_int span with
      | some v => (v + 1).toNat
      | none => 256
    let base := simp_e ib.1
    let lut := Expr.load (t.with_lanes const_extent) n
      (.ramp base (.intImm ⟨.int, 32, 1⟩ 1) const_extent)
    let index8 := simp_e (castTo ⟨.uint, 8, t.lanes⟩ (subE index base))
    .call t "dynamic_shuffle"
      (EL [lut, index8, .intImm ⟨.int, 32, 1⟩ 0, .intImm ⟨.int, 32, 1⟩ (const_extent : Int)])
      .pureIntrinsic
  else .load t n index

mutual
/-- Mirrors the `OptimizeShuffles` tree pass.  The scope maps vector
let-bound names to their inferred bound intervals.  Scalar loads and
ramp-indexed loads take the generic traversal; an indirect vector load is
handed to `os_load_rewrite` after its index is mutated. -/
def os_mutate (scope : List (String × (Expr × Expr))) : Expr → Expr
  | .intImm t v => .intImm t v
  | .var t n => .var t n
  | .cast t v => .cast t (os_mutate scope v)
  | .add a b => .add (os_mutate scope a) (os_mutate scope b)
  | .sub a b => .sub (os_mutate scope a) (os_mutate scope b)
  | .mul a b => .mul (os_mutate scope a) (os_mutate scope b)
  | .div a b => .div (os_mutate scope a) (os_mutate scope b)
  | .mod a b => .mod (os_mutate scope a) (os_mutate scope b)
  | .min a b => .min (os_mutate scope a) (os_mutate scope b)
  | .max a b => .max (os_mutate scope a) (os_mutate scope b)
  | .eq a b => .eq (os_mutate scope a) (os_mutate scope b)
  | .ne a b => .ne (os_mutate scope a) (os_mutate scope b)
  | .lt a b => .lt (os_mutate scope a) (os_mutate scope b)
  | .le a b => .le (os_mutate scope a) (os_mutate scope b)
  | .gt a b => .gt (os_mutate scope a) (os_mutate scope b)
  | .ge a b => .ge (os_mutate scope a) (os_mutate scope b)
  | .and a b => .and (os_mutate scope a) (os_mutate scope b)
  | .or a b => .or (os_mutate scope a) (os_mutate scope b)
  | .not a => .not (os_mutate scope a)
  | .select c tv fv => .select (os_mutate scope c) (os_mutate scope tv) (os_mutate scope fv)
  | .let_ n v b =>
    let scope' := if v.ty.is_vector then (n, bounds_of scope v) :: scope else scope
    .let_ n (os_mutate scope' v) (os_mutate scope' b)
  | .broadcast v l => .broadcast (os_mutate scope v) l
  | .ramp b s l => .ramp (os_mutate scope b) (os_mutate scope s) l
  | .load t n i =>
    if !t.is_vector || is_ramp i then .load t n (os_mutate scope i)
    else os_load_rewrite scope t n (os_mutate scope i)
  | .call t n args ct => .call t n (os_mutate_list scope args) ct

/-- `OptimizeShuffles` over an argument list. -/
def os_mutate_list (scope : List (String × (Expr × Expr))) : ExprList → ExprList
  | .nil => .nil
  | .cons e es => .cons (os_mutate scope e) (os_mutate_list scope es)
end

/-- Mirrors `optimize_hexagon_shuffles`. -/
def optimize_hexagon_shuffles (s : Expr) : Expr := os_mutate [] s

/-- An evaluator for the scalar integer fragment (immediates, variables,
add/subtract/multiply, min/max; casts and broadcasts are value-preserving
here), used to state the widening property of the upper-bound helper. -/
def evalI (env : String → Int) : Expr → Int
  | .intImm _ v => v
  | .var _ n => env n
  | .add a b => evalI env a + evalI env b
  | .sub a b => evalI env a - evalI env b
  | .mul a b => evalI env a * evalI env b
  | .min a b => Min.min (evalI env a) (evalI env b)
  | .max a b => Max.max (evalI env a) (evalI env b)
  | .broadcast v _ => evalI env v
  | .cast _ v => evalI env v
  | _ => 0

/-! ### Template wildcard accounting (for the flag-safety invariant) -/

mutual
/-- The wildcard leaf types of a pattern template, in the left-to-right
depth-first order in which the structural matcher binds them. -/
def template_wilds : Expr → List Ty
  | .var t n => if n == "*" then [t] else []
  | .cast _ v => template_wilds v
  | .add a b | .sub a b | .mul a b | .div a b | .mod a b
  | .min a b | .max a b | .eq a b | .ne a b | .lt a b
  | .le a b | .gt a b | .ge a b | .and a b | .or a b =>
    template_wilds a ++ template_wilds b
  | .not a => template_wilds a
  | .select c t f => template_wilds c ++ template_wilds t ++ template_wilds f
  | .let_ _ v b => template_wilds v ++ template_wilds b
  | .broadcast v _ => template_wilds v
  | .ramp b s _ => template_wilds b ++ template_wilds s
  | .load _ _ i => template_wilds i
  | .call _ _ args _ => template_wilds_list args
  | .intImm _ _ => []

/-- Wildcards of an argument list, in order. -/
def template_wilds_list : ExprList → List Ty
  | .nil => []
  | .cons e es => template_wilds e ++ template_wilds_list es
end

/-- The per-pattern safety conditions behind the fatal assertions of
`apply_patterns`: a swap flag requires enough wildcard bindings, an
exact-log2 flag references an operand index within the binding count, and a
deinterleave flag references an in-range, vector-typed wildcard. -/
def pattern_flags_safe (p : Pattern) : Bool :=
  let ws := template_wilds p.pattern
  (!p.flags.testBit 1 || ws.length ≥ 2) &&
  (!p.flags.testBit 2 || ws.length ≥ 3) &&
  (!p.flags.testBit 3 || 1 < ws.length) &&
  (!p.flags.testBit 4 || 2 < ws.length) &&
  (!p.flags.testBit 5 ||
    (match ws[0]? with | some t => t.is_vector | none => false)) &&
  (!p.flags.testBit 6 ||
    (match ws[1]? with | some t => t.is_vector | none => false)) &&
  (!p.flags.testBit 7 ||
    (match ws[2]? with | some t => t.is_vector | none => false))

/-! ### Concrete fixtures used by the claim theorems and their witnesses -/

/-- The scalar signed 32-bit type. -/
def i32s : Ty := ⟨.int, 32, 1⟩

/-- A 64-lane signed 32-bit vector variable. -/
def vvar : Expr := .var ⟨.int, 32, 64⟩ "v"

/-- A 64-lane signed 16-bit vector variable. -/
def wvar : Expr := .var ⟨.int, 16, 64⟩ "w"

/-- Wrap in the 16-bit interleave marker call. -/
def ivh (x : Expr) : Expr := .call x.ty "halide.hexagon.interleave.vh" (EL [x]) .pureExtern

/-- Wrap in the 16-bit deinterleave marker call. -/
def dvh (x : Expr) : Expr := .call x.ty "halide.hexagon.deinterleave.vh" (EL [x]) .pureExtern

/-- The let-bound variable of the let-rebinding fixtures. -/
def tvar : Expr := .var ⟨.int, 16, 64⟩ "t"

/-- The shadow (deinterleaved) variable of the let-rebinding fixtures. -/
def tdvar : Expr := .var ⟨.int, 16, 64⟩ "t.deinterleaved"

/-- `v + v * broadcast(8)`: multiply by a power of two. -/
def x8 : Expr := .add vvar (.mul vvar (.broadcast (.intImm i32s 8) 64))

/-- `v + v * broadcast(6)`: multiply by a non-power-of-two. -/
def x6 : Expr := .add vvar (.mul vvar (.broadcast (.intImm i32s 6) 64))

/-- `v + v / broadcast(6)`: divide by a non-power-of-two. -/
def d6 : Expr := .add vvar (.div vvar (.broadcast (.intImm i32s 6) 64))

/-- `v + v / broadcast(8)`: divide by a power of two. -/
def d8 : Expr := .add vvar (.div vvar (.broadcast (.intImm i32s 8) 64))

/-- The fifth add pattern (`add_shl` with the `ExactLog2Op2` flag). -/
def p_add_shl : Pattern :=
  ⟨"halide.hexagon.add_shl.vw.vw.w", addE wild_i32x (mulE wild_i32x (bc wild_i32)),
    Pattern.ExactLog2Op2⟩

/-- A let whose value is a marker and whose body uses both the original and
the shadow name once rewritten. -/
def c4in : Expr := .let_ "t" (ivh wvar) (.add tvar (dvh tvar))

/-- A scalar expression that the eliminator does not leave fixed: a let
whose marker pair cancels. -/
def scex : Expr := .let_ "z" (dvh (ivh wvar)) (.intImm i32s 5)

/-- Scalar variable `x`. -/
def xv : Expr := .var i32s "x"

/-- Scalar variable `y`. -/
def yv : Expr := .var i32s "y"

/-- The scalar constant 0. -/
def k0 : Expr := .intImm i32s 0

/-- A valuation with `x = -5` and everything else 0. -/
def env0 : String → Int := fun n => if n == "x" then -5 else 0

/-- A valuation with `x = 7` and everything else 0. -/
def env1 : String → Int := fun n => if n == "x" then 7 else 0

/-- An unsigned 8-bit indirect vector load (index bounds 0..255). -/
def u8load : Expr := .load ⟨.uint, 8, 64⟩ "t" (.var ⟨.int, 32, 64⟩ "i")

/-- An index expression whose span upper bound is exactly 255. -/
def idx255 : Expr := .cast ⟨.int, 32, 64⟩ u8load

/-- An indirect load whose index span is exactly 255. -/
def load255 : Expr := .load ⟨.int, 32, 64⟩ "data" idx255

/-- An unsigned 16-bit indirect vector load (index bounds 0..65535). -/
def u16load : Expr := .load ⟨.uint, 16, 64⟩ "t" (.var ⟨.int, 32, 64⟩ "i")

/-- An index expression whose span upper bound is exactly 256. -/
def idx256 : Expr :=
  .min (.cast ⟨.int, 32, 64⟩ u16load) (.broadcast (.intImm i32s 256) 64)

/-- An indirect load whose index span is exactly 256. -/
def load256 : Expr := .load ⟨.int, 32, 64⟩ "data" idx256

/-- An indirect load with an unbounded (full-type-range) index. -/
def loadunb : Expr := .load ⟨.int, 32, 64⟩ "data" (.var ⟨.int, 32, 64⟩ "j")

/-- A 64-lane signed 16-bit broadcast constant. -/
def bc3 : Expr := .broadcast (.intImm ⟨.int, 16, 1⟩ 3) 64

/-- Wrap in the 32-bit deinterleave marker call. -/
def dvw (x : Expr) : Expr := .call x.ty "halide.hexagon.deinterleave.vw" (EL [x]) .pureExtern

end HexOpt

namespace HexOpt

set_option maxRecDepth 100000

/-! ### Helper lemmas about the interleave eliminator -/

/-- A one-argument call that is neither on the transparency allow-list nor a
candidate for cancellation or dual-form substitution is simply rebuilt from
its mutated argument. -/
theorem ei_call_plain (vars : List String) (t : Ty) (iN : String) (x : Expr) (ct : CallType)
    (h3 : (iN == "bitwise_and" || iN == "bitwise_not" || iN == "bitwise_xor" || iN == "bitwise_or" ||
      iN == "shift_left" || iN == "shift_right" || iN == "abs" || iN == "absd") = false)
    (h4 : (iN == "halide.hexagon.interleave.vb" || iN == "halide.hexagon.interleave.vh" ||
      iN == "halide.hexagon.interleave.vw" || iN == "halide.hexagon.deinterleave.vb" ||
      iN == "halide.hexagon.deinterleave.vh" || iN == "halide.hexagon.deinterleave.vw") = true)
    (h2 : starts_with iN "halide.hexagon.deinterleave" = false)
    (halts : deinterleaving_alts iN = none) :
    ei_mutate vars (.call t iN (.cons x .nil) ct) =
      (ei_mutate vars x).map (fun x' => .call t iN (.cons x' .nil) ct) := by
  cases hx : ei_mutate vars x with
  | none => simp [ei_mutate, ei_mutate_list, hx]
  | some x' =>
    simp [ei_mutate, ei_mutate_list, hx, ei_call_combine, is_native_deinterleave,
      is_native_interleave_op, h2, is_interleavable, h3, h4, halts, ExprList.length]

/-- The cancellation step of the call rule: a deinterleave marker over a
mutated argument that yields an interleave reduces to `remove_interleave` of
that argument. -/
theorem ei_deint_call (vars : List String) (t : Ty) (dN : String) (b : Expr) (ct : CallType)
    (hd : starts_with dN "halide.hexagon.deinterleave" = true)
    (b' : Expr) (hb : ei_mutate vars b = some b')
    (hy : yields_interleave vars b' = true) :
    ei_mutate vars (.call t dN (.cons b .nil) ct) = remove_interleave vars b' := by
  simp [ei_mutate, ei_mutate_list, hb, ei_call_combine, is_native_deinterleave,
    is_native_interleave_op, hd, hy, ExprList.length, ExprList.head?]

/-- Scalars and broadcasts always yield an interleave. -/
theorem yields_interleave_of_sb (vars : List String) (x : Expr)
    (h : (x.ty.is_scalar || is_broadcast x) = true) : yields_interleave vars x = true := by
  cases hA : is_native_interleave x <;> simp [yields_interleave, hA, h]

/-- Removing the interleave of a non-marker scalar or broadcast returns it
unchanged. -/
theorem remove_interleave_of_sb (vars : List String) (x : Expr)
    (hnm : is_native_interleave x = false) (h : (x.ty.is_scalar || is_broadcast x) = true) :
    remove_interleave vars x = some x := by
  simp [remove_interleave, hnm, h]

/-- A deinterleave marker call directly over an interleave marker call
cancels both, leaving the mutation of the wrapped expression.  The marker
names are abstract here; the string-level side conditions are discharged at
each concrete width. -/
theorem cancel_pair (vars : List String) (x : Expr) (iN dN : String)
    (f3 : (iN == "bitwise_and" || iN == "bitwise_not" || iN == "bitwise_xor" || iN == "bitwise_or" ||
      iN == "shift_left" || iN == "shift_right" || iN == "abs" || iN == "absd") = false)
    (f4 : (iN == "halide.hexagon.interleave.vb" || iN == "halide.hexagon.interleave.vh" ||
      iN == "halide.hexagon.interleave.vw" || iN == "halide.hexagon.deinterleave.vb" ||
      iN == "halide.hexagon.deinterleave.vh" || iN == "halide.hexagon.deinterleave.vw") = true)
    (f2 : starts_with iN "halide.hexagon.deinterleave" = false)
    (falts : deinterleaving_alts iN = none)
    (fin : starts_with iN "halide.hexagon.interleave" = true)
    (fdn : starts_with dN "halide.hexagon.deinterleave" = true) :
    ei_mutate vars (.call x.ty dN
      (.cons (.call x.ty iN (.cons x .nil) .pureExtern) .nil) .pureExtern) =
      ei_mutate vars x := by
  cases hx : ei_mutate vars x with
  | none =>
    simp [ei_mutate, ei_mutate_list, hx]
  | some x' =>
    have h := ei_call_plain vars x.ty iN x .pureExtern f3 f4 f2 falts
    rw [hx] at h
    simp only [Option.map_some'] at h
    rw [ei_deint_call vars x.ty dN _ .pureExtern fdn _ h
      (by simp [yields_interleave, is_native_interleave, is_native_interleave_op,
        ExprList.length, fin])]
    simp [remove_interleave, is_native_interleave, is_native_interleave_op,
      ExprList.length, fin, hx]

/-- Removal of a deinterleave marker call over an argument that yields an
interleave, for any marker-family name: the scalar/broadcast case and the
shadowed-variable case. -/
theorem ei_deint_helper (vars : List String) (b b' : Expr) (dN : String)
    (fdn : starts_with dN "halide.hexagon.deinterleave" = true)
    (hb : ei_mutate vars b = some b') :
    ((b'.ty.is_scalar || is_broadcast b') = true → is_native_interleave b' = false →
       ei_mutate vars (.call b.ty dN (.cons b .nil) .pureExtern) = some b') ∧
    (∀ t n, b = .var t n → t.is_scalar = false →
       vars.contains (n ++ ".deinterleaved") = true →
       ei_mutate vars (.call b.ty dN (.cons b .nil) .pureExtern) =
         some (.var t (n ++ ".deinterleaved"))) := by
  constructor
  · intro hsb hnm
    rw [ei_deint_call vars b.ty dN b .pureExtern fdn b' hb
      (yields_interleave_of_sb vars b' hsb)]
    exact remove_interleave_of_sb vars b' hnm hsb
  · intro t n hbv hsc hcont
    subst hbv
    have hb2 : b' = Expr.var t n := by
      have h2 := hb
      simp [ei_mutate] at h2
      exact h2.symm
    subst hb2
    have hy : yields_interleave vars (Expr.var t n) = true := by
      simp [yields_interleave, is_native_interleave, is_native_interleave_op,
        Expr.ty, Ty.is_scalar, is_broadcast, hsc]
      right
      simpa using hcont
    rw [ei_deint_call vars (Expr.var t n).ty dN (Expr.var t n) .pureExtern fdn
      (Expr.var t n) hb hy]
    have hns : Ty.is_scalar t = false := hsc
    simp [remove_interleave, is_native_interleave, is_native_interleave_op,
      Expr.ty, is_broadcast, hns, hcont]
    simpa using hcont

/-! ### Helper lemmas about the pattern engine -/

/-- A successful `finish_pattern` result is the intrinsic call itself or
its interleave wrapping. -/
theorem finish_pattern_shape (x : Expr) (p : Pattern) (ms5 : List Expr) (r : Expr)
    (h : finish_pattern x p ms5 = .success r) :
    r = .call x.ty p.intrin (EL ms5) .pureExtern ∨
      native_interleave (.call x.ty p.intrin (EL ms5) .pureExtern) = some r := by
  unfold finish_pattern at h
  split at h
  · split at h
    · exact absurd h (by simp)
    · injection h with hr
      subst hr
      right
      assumption
  · injection h with hr
    exact Or.inl hr.symm

/-- Any successful pattern attempt produces the call to the intrinsic of
that pattern, possibly wrapped in one interleave marker. -/
theorem try_pattern_success_shape (m : Expr → Option Expr) (x : Expr) (p : Pattern) (r : Expr)
    (h : try_pattern m x p = .success r) :
    ∃ ms, r = .call x.ty p.intrin (EL ms) .pureExtern ∨
      native_interleave (.call x.ty p.intrin (EL ms) .pureExtern) = some r := by
  unfold try_pattern at h
  repeat' split at h
  all_goals first
    | exact ⟨_, finish_pattern_shape x p _ r h⟩
    | exact absurd h (by simp)

/-- The per-operand step of the exact-log2 loop when the positional flag is
set. -/
theorem exact_log2_step_pos (flags : Nat) (base : Nat) (m : Expr)
    (hge : 1 ≤ base) (hbit : flags.testBit (2 + base) = true) :
    (if 1 ≤ base ∧ flags.testBit (2 + base) then
      match is_const_power_of_two_integer m with
      | some pow => some (castTo (m.ty.with_lanes 1) (.intImm ⟨.int, 32, 1⟩ (pow : Int)))
      | none => none
    else some m) = (match is_const_power_of_two_integer m with
      | some pow => some (castTo (m.ty.with_lanes 1) (.intImm ⟨.int, 32, 1⟩ (pow : Int)))
      | none => none) := by
  rw [if_pos ⟨hge, hbit⟩]

/-- A flagged operand that is not a compile-time power of two aborts the
whole exact-log2 phase. -/
theorem exact_log2_phase_abort (flags : Nat) :
    ∀ (ms : List Expr) (base j : Nat) (m' : Expr), ms[j]? = some m' →
      1 ≤ base + j → flags.testBit (2 + base + j) = true →
      is_const_power_of_two_integer m' = none →
      exact_log2_phase flags base ms = none := by
  intro ms
  induction ms with
  | nil => intro base j m' hg; simp at hg
  | cons m rest ih =>
    intro base j m' hg hge hbit hnp
    rw [exact_log2_phase]
    cases j with
    | zero =>
      simp at hg
      subst hg
      rw [exact_log2_step_pos flags base m (by omega) (by simpa using hbit), hnp]
    | succ k =>
      simp at hg
      have harith : 2 + (base + 1) + k = 2 + base + (k + 1) := by omega
      have hrest := ih (base + 1) k m' hg (by omega) (by rw [harith]; exact hbit) hnp
      rw [hrest]
      cases hmb : (if 1 ≤ base ∧ flags.testBit (2 + base) = true then
          match is_const_power_of_two_integer m with
          | some pow => some (castTo (m.ty.with_lanes 1) (.intImm ⟨.int, 32, 1⟩ (pow : Int)))
          | none => none
        else some m) <;> rfl

/-- A flagged operand that is a compile-time power of two is replaced by
its log base 2 at the one-lane type. -/
theorem exact_log2_phase_replace (flags : Nat) :
    ∀ (ms : List Expr) (res : List Expr) (base j : Nat) (m' : Expr) (pow : Nat),
      exact_log2_phase flags base ms = some res → ms[j]? = some m' →
      1 ≤ base + j → flags.testBit (2 + base + j) = true →
      is_const_power_of_two_integer m' = some pow →
      res[j]? = some (castTo (m'.ty.with_lanes 1) (.intImm ⟨.int, 32, 1⟩ (pow : Int))) := by
  intro ms
  induction ms with
  | nil => intro res base j m' pow hp hg; simp at hg
  | cons m rest ih =>
    intro res base j m' pow hp hg hge hbit hpw
    rw [exact_log2_phase] at hp
    cases j with
    | zero =>
      simp at hg
      subst hg
      rw [exact_log2_step_pos flags base m (by omega) (by simpa using hbit), hpw] at hp
      have hp2 : (match exact_log2_phase flags (base + 1) rest with
          | none => none
          | some rest' =>
            some (castTo (m.ty.with_lanes 1)
              (Expr.intImm ⟨.int, 32, 1⟩ (pow : Int)) :: rest')) = some res := hp
      split at hp2
      · exact absurd hp2 (by simp)
      · next rest' hrest =>
        injection hp2 with hres
        subst hres
        simp
    | succ k =>
      simp at hg
      split at hp
      · exact absurd hp (by simp)
      · next mm hmm =>
        split at hp
        · exact absurd hp (by simp)
        · next rest' hrest =>
          injection hp with hres
          subst hres
          have harith : 2 + (base + 1) + k = 2 + base + (k + 1) := by omega
          have := ih rest' (base + 1) k m' pow hrest hg (by omega)
            (by rw [harith]; exact hbit) hpw
          simpa using this

/-- A failed exact-log2 phase makes the whole pattern attempt a no-match
(the engine falls through to the next pattern). -/
theorem try_pattern_log2_abort (m : Expr → Option Expr) (x : Expr) (p : Pattern)
    (ms ms1 : List Expr) (h1 : expr_match p.pattern x = some ms)
    (h2 : narrow_phase p.flags 0 ms = some ms1)
    (h3 : exact_log2_phase p.flags 0 ms1 = none) :
    try_pattern m x p = .noMatch := by
  simp [try_pattern, h1, h2, h3]

/-- The lossless-negate helper succeeds exactly on the spec-described
class: a negatable constant, or a product with a negatable factor. -/
theorem lossless_negate_spec (x : Expr) : (lossless_negate x).isSome = negatable_spec x := by
  have H : ∀ n (x : Expr), x.size ≤ n → (lossless_negate x).isSome = negatable_spec x := by
    intro n
    induction n with
    | zero => intro x h; cases x <;> simp [Expr.size] at h
    | succ n ih =>
      intro x h
      cases x with
      | mul a b =>
        have iha := ih a (by simp [Expr.size] at h; omega)
        have ihb := ih b (by simp [Expr.size] at h; omega)
        rw [lossless_negate, negatable_spec]
        cases ha : lossless_negate a with
        | some a2 =>
          simp [ha] at iha
          simp [iha]
        | none =>
          simp [ha] at iha
          cases hb : lossless_negate b with
          | some b2 =>
            simp [hb] at ihb
            simp [iha, ihb]
          | none =>
            simp [hb] at ihb
            simp [iha, ihb, apply_ite Option.isSome]
      | _ => simp [lossless_negate, negatable_spec, apply_ite Option.isSome]
  exact H x.size x le_rfl

end HexOpt

namespace HexOpt

/-! ### Claim C1 — marker cancellation -/

/-- Refutes C1 as stated: mutating `deinterleave(interleave(x))` does not
always yield exactly `x`, because the eliminator first mutates `x` itself;
at `x = deinterleave(interleave(w))` the result is `w`, not `x`. -/
theorem c1_marker_cancellation_cex :
    ei_mutate [] (dvh (ivh (dvh (ivh wvar)))) = some wvar ∧
    ei_mutate [] (dvh (ivh (dvh (ivh wvar)))) ≠ some (dvh (ivh wvar)) := by decide

/-- C1 (amended): for every expression `x` and every marker pair built by
`native_interleave` / `native_deinterleave`, mutating
`deinterleave(interleave(x))` with the interleave eliminator yields exactly
the mutation of `x` — the two markers cancel to the identity, so the result
is exactly `x` whenever the eliminator leaves `x` unchanged. -/
theorem c1_marker_cancellation (vars : List String) (x ix dx : Expr)
    (hi : native_interleave x = some ix) (hd : native_deinterleave ix = some dx) :
    ei_mutate vars dx = ei_mutate vars x := by
  unfold native_interleave at hi
  split at hi
  case h_4 => exact absurd hi (by simp)
  case h_1 hbits =>
    injection hi with hix
    subst hix
    unfold native_deinterleave at hd
    simp only [Expr.ty, EL] at hd
    rw [hbits] at hd
    simp only [] at hd
    injection hd with hdx
    subst hdx
    exact cancel_pair vars x _ _ (by decide) (by decide) (by decide) (by decide)
      (by decide) (by decide)
  case h_2 hbits =>
    injection hi with hix
    subst hix
    unfold native_deinterleave at hd
    simp only [Expr.ty, EL] at hd
    rw [hbits] at hd
    simp only [] at hd
    injection hd with hdx
    subst hdx
    exact cancel_pair vars x _ _ (by decide) (by decide) (by decide) (by decide)
      (by decide) (by decide)
  case h_3 hbits =>
    injection hi with hix
    subst hix
    unfold native_deinterleave at hd
    simp only [Expr.ty, EL] at hd
    rw [hbits] at hd
    simp only [] at hd
    injection hd with hdx
    subst hdx
    exact cancel_pair vars x _ _ (by decide) (by decide) (by decide) (by decide)
      (by decide) (by decide)

/-- Witness for C1 at the 16-bit width and a fixed-point operand. -/
theorem c1_marker_cancellation_witness :
    ei_mutate [] (dvh (ivh wvar)) = ei_mutate [] wvar :=
  c1_marker_cancellation [] wvar (ivh wvar) (dvh (ivh wvar)) (by decide) (by decide)

/-! ### Claim C2 — first match wins, no match returns the input -/

/-- C2: `apply_patterns` scans the table in declaration order; the first
pattern whose attempt succeeds determines the result, which is the call to
that pattern intrinsic (possibly wrapped in one interleave marker); and
when no pattern attempt succeeds the input is returned unchanged, never an
error. -/
theorem c2_first_match_wins (x : Expr) (m : Expr → Option Expr) :
    (∀ ps, (∀ p ∈ ps, try_pattern m x p = .noMatch) → apply_patterns x ps m = some x) ∧
    (∀ pre p post r, (∀ q ∈ pre, try_pattern m x q = .noMatch) →
       try_pattern m x p = .success r →
       apply_patterns x (pre ++ p :: post) m = some r ∧
       ∃ ms, r = .call x.ty p.intrin (EL ms) .pureExtern ∨
         native_interleave (.call x.ty p.intrin (EL ms) .pureExtern) = some r) := by
  constructor
  · intro ps
    induction ps with
    | nil => intro _; rfl
    | cons q rest ih =>
      intro hall
      have hq := hall q (List.mem_cons_self q rest)
      simp [apply_patterns, hq]
      exact ih fun p hp => hall p (List.mem_cons_of_mem q hp)
  · intro pre p post r hpre hsucc
    constructor
    · induction pre with
      | nil => simp [apply_patterns, hsucc]
      | cons q rest ih =>
        have hq := hpre q (List.mem_cons_self q rest)
        simp [apply_patterns, hq]
        exact ih fun q2 hq2 => hpre q2 (List.mem_cons_of_mem q hq2)
    · exact try_pattern_success_shape m x p r hsucc

/-- Witness for C2: in the add table the fifth pattern is the earliest
successful one on `v + v * broadcast(8)` and its intrinsic call is the
result. -/
theorem c2_first_match_wins_witness :
    apply_patterns x8 adds some =
      some (.call ⟨.int, 32, 64⟩ "halide.hexagon.add_shl.vw.vw.w"
        (EL [vvar, vvar, .intImm i32s 3]) .pureExtern) := by
  have h := (c2_first_match_wins x8 some).2 (adds.take 4) p_add_shl (adds.drop 5)
    (.call ⟨.int, 32, 64⟩ "halide.hexagon.add_shl.vw.vw.w"
      (EL [vvar, vvar, .intImm i32s 3]) .pureExtern)
    (by decide) (by decide)
  exact (by decide : adds.take 4 ++ p_add_shl :: adds.drop 5 = adds) ▸ h.1

end HexOpt

namespace HexOpt

/-! ### Claim C3 — shuffle boundary -/

/-- C3: scalar and ramp-indexed loads are never converted (they take the
generic traversal); an indirect vector load is replaced by a
`dynamic_shuffle` call if and only if the computed index span is provably
below 256; the replacement is the contiguous table load of `span + 1`
elements (256 when the span is not a compile-time constant) from the index
minimum together with the four-argument `dynamic_shuffle` (table, 8-bit
`index - min`, zero pad, table length); a span bound of exactly 255
converts while a bound of 256 or an unbounded index leaves the load. -/
theorem c3_shuffle_boundary :
    (∀ scope t n i, t.is_vector = false →
       os_mutate scope (.load t n i) = .load t n (os_mutate scope i)) ∧
    (∀ scope t n i, is_ramp i = true →
       os_mutate scope (.load t n i) = .load t n (os_mutate scope i)) ∧
    (∀ scope t n i, t.is_vector = true → is_ramp i = false →
       os_mutate scope (.load t n i) = os_load_rewrite scope t n (os_mutate scope i)) ∧
    (∀ scope t n index,
       is_one (simp_e (.lt (os_index_span scope index)
         (make_const (os_index_span scope index).ty 256))) = false →
       os_load_rewrite scope t n index = .load t n index) ∧
    (∀ scope t n index,
       is_one (simp_e (.lt (os_index_span scope index)
         (make_const (os_index_span scope index).ty 256))) = true →
       os_load_rewrite scope t n index =
         (let span := os_index_span scope index
          let const_extent : Nat :=
            match as_const_int span with
            | some v => (v + 1).toNat
            | none => 256
          let base := simp_e (bounds_of scope index).1
          .call t "dynamic_shuffle"
            (EL [.load (t.with_lanes const_extent) n
                   (.ramp base (.intImm ⟨.int, 32, 1⟩ 1) const_extent),
                 simp_e (castTo ⟨.uint, 8, t.lanes⟩ (subE index base)),
                 .intImm ⟨.int, 32, 1⟩ 0, .intImm ⟨.int, 32, 1⟩ (const_extent : Int)])
            .pureIntrinsic)) ∧
    (∀ scope t n i,
       (∃ args ct2, os_mutate scope (.load t n i) = .call t "dynamic_shuffle" args ct2) ↔
       (t.is_vector = true ∧ is_ramp i = false ∧
         is_one (simp_e (.lt (os_index_span scope (os_mutate scope i))
           (make_const (os_index_span scope (os_mutate scope i)).ty 256))) = true)) ∧
    os_mutate [] load255 =
      .call ⟨.int, 32, 64⟩ "dynamic_shuffle"
        (EL [.load ⟨.int, 32, 256⟩ "data"
               (.ramp (.intImm i32s 0) (.intImm i32s 1) 256),
             .cast ⟨.uint, 8, 64⟩ (.sub idx255 (.broadcast (.intImm i32s 0) 64)),
             .intImm i32s 0, .intImm i32s 256]) .pureIntrinsic ∧
    os_mutate [] load256 = load256 ∧
    os_mutate [] loadunb = loadunb := by
  refine ⟨?_, ?_, ?_, ?_, ?_, ?_, by decide, by decide, by decide⟩
  · intro scope t n i h
    simp [os_mutate, h]
  · intro scope t n i h
    simp [os_mutate, h]
  · intro scope t n i h1 h2
    simp [os_mutate, h1, h2]
  · intro scope t n index h
    simp [os_load_rewrite, h]
  · intro scope t n index h
    simp [os_load_rewrite, h]
  · intro scope t n i
    constructor
    · rintro ⟨args, ct2, hcall⟩
      by_cases hv : t.is_vector = true
      · by_cases hr : is_ramp i = true
        · rw [os_mutate] at hcall
          simp [hr] at hcall
        · by_cases hone : is_one (simp_e (.lt (os_index_span scope (os_mutate scope i))
            (make_const (os_index_span scope (os_mutate scope i)).ty 256))) = true
          · exact ⟨hv, by simpa using hr, hone⟩
          · rw [os_mutate] at hcall
            simp [hv, hr, os_load_rewrite] at hcall
            rw [if_neg (by simpa using hone)] at hcall
            simp at hcall
      · rw [os_mutate] at hcall
        simp [hv] at hcall
    · rintro ⟨hv, hr, hone⟩
      rw [os_mutate]
      simp [hv, hr, os_load_rewrite, hone]

/-- Witness for C3: a scalar load is left to the generic traversal, and the
span-255 load converts to a `dynamic_shuffle`. -/
theorem c3_shuffle_boundary_witness :
    os_mutate [] (.load i32s "s" (.var i32s "i")) =
      .load i32s "s" (os_mutate [] (.var i32s "i")) ∧
    (∃ args ct2, os_mutate [] load255 = .call ⟨.int, 32, 64⟩ "dynamic_shuffle" args ct2) := by
  constructor
  · exact c3_shuffle_boundary.1 [] i32s "s" (.var i32s "i") (by decide)
  · exact (c3_shuffle_boundary.2.2.2.2.2.1 [] ⟨.int, 32, 64⟩ "data" idx255).mpr
      ⟨by decide, by decide, by decide⟩

/-! ### Claim C4 — let rebinding -/

/-- Refutes C4 as stated: in the dual-use case the code binds the shadow
name in the OUTER let and the original name in the INNER let (the opposite
nesting of the claim), as the inner marker references the shadow
variable. -/
theorem c4_let_rebinding_cex :
    ei_mutate [] c4in =
      some (.let_ "t.deinterleaved" wvar (.let_ "t" (ivh tdvar) (.add tvar tdvar))) ∧
    ei_mutate [] c4in ≠
      some (.let_ "t" (ivh tdvar) (.let_ "t.deinterleaved" wvar (.add tvar tdvar))) := by
  decide

/-- C4 (amended): when the mutated value of a let is an interleave marker
and the mutated body differs from the original, the output is decided by
which names the mutated body references: neither one and the binding is
dropped, with a fatal assertion if the original body referenced the let
name; shadow only and a single let binds the de-marked value under the
shadow name; original only and a single let binds the (possibly marked)
value; both, and two nested lets are produced whose OUTER binding is the
shadow name bound to the de-marked value and whose INNER binding is the
original name bound to a fresh marker over the shadow variable. -/
theorem c4_let_rebinding (vars : List String) (n : String) (v b value body d iv : Expr)
    (hv : ei_mutate vars v = some value)
    (hmark : is_native_interleave value = true)
    (hb : ei_mutate ((n ++ ".deinterleaved") :: vars) b = some body)
    (hchanged : body ≠ b)
    (hd : remove_interleave vars value = some d)
    (hiv : native_interleave (.var d.ty (n ++ ".deinterleaved")) = some iv) :
    (expr_uses_var body (n ++ ".deinterleaved") = true → expr_uses_var body n = true →
       ei_mutate vars (.let_ n v b) =
         some (.let_ (n ++ ".deinterleaved") d (.let_ n iv body))) ∧
    (expr_uses_var body (n ++ ".deinterleaved") = true → expr_uses_var body n = false →
       ei_mutate vars (.let_ n v b) = some (.let_ (n ++ ".deinterleaved") d body)) ∧
    (expr_uses_var body (n ++ ".deinterleaved") = false → expr_uses_var body n = true →
       ei_mutate vars (.let_ n v b) = some (.let_ n value body)) ∧
    (expr_uses_var body (n ++ ".deinterleaved") = false → expr_uses_var body n = false →
       ei_mutate vars (.let_ n v b) =
         (if expr_uses_var b n = true then none else some body)) := by
  have hbb : (body == b) = false := beq_eq_false_iff_ne.mpr hchanged
  refine ⟨fun hdu hiu => ?_, fun hdu hiu => ?_, fun hdu hiu => ?_, fun hdu hiu => ?_⟩ <;>
    simp [ei_mutate, hv, hmark, hb, hbb, hd, hiv, hdu, hiu] <;>
    simp_all

/-- Witness for C4 at the dual-use fixture. -/
theorem c4_let_rebinding_witness :
    ei_mutate [] (.let_ "t" (ivh wvar) (.add tvar (dvh tvar))) =
      some (.let_ "t.deinterleaved" wvar (.let_ "t" (ivh tdvar) (.add tvar tdvar))) := by
  have h := c4_let_rebinding [] "t" (ivh wvar) (.add tvar (dvh tvar)) (ivh wvar)
    (.add tvar tdvar) wvar (ivh tdvar) (by decide) (by decide) (by decide) (by decide)
    (by decide) (by decide)
  exact h.1 (by decide) (by decide)

end HexOpt

namespace HexOpt

/-! ### Claim C5 — exact-log2 flag handling -/

/-- C5: an Exact-log2 flag on operand `i ≥ 1` succeeds only when the bound
operand is a compile-time power-of-two constant, replacing it by its log
base 2 as a one-lane scalar; otherwise the pattern attempt aborts as a
no-match; consequently, multiplying or dividing by the constant 6 is never
turned into a shift intrinsic by the add table, while multiplying or
dividing by 8 is. -/
theorem c5_exact_log2 :
    (∀ (flags : Nat) (ms : List Expr) (base j : Nat) (m' : Expr), ms[j]? = some m' →
       1 ≤ base + j → flags.testBit (2 + base + j) = true →
       is_const_power_of_two_integer m' = none →
       exact_log2_phase flags base ms = none) ∧
    (∀ (flags : Nat) (ms res : List Expr) (base j : Nat) (m' : Expr) (pow : Nat),
       exact_log2_phase flags base ms = some res → ms[j]? = some m' →
       1 ≤ base + j → flags.testBit (2 + base + j) = true →
       is_const_power_of_two_integer m' = some pow →
       res[j]? = some (castTo (m'.ty.with_lanes 1) (.intImm ⟨.int, 32, 1⟩ (pow : Int)))) ∧
    (∀ (m : Expr → Option Expr) (x : Expr) (p : Pattern) (ms ms1 : List Expr),
       expr_match p.pattern x = some ms → narrow_phase p.flags 0 ms = some ms1 →
       exact_log2_phase p.flags 0 ms1 = none → try_pattern m x p = .noMatch) ∧
    apply_patterns x6 adds some =
      some (.call ⟨.int, 32, 64⟩ "halide.hexagon.add_mul.vw.vw.h"
        (EL [vvar, vvar, .intImm ⟨.int, 16, 1⟩ 6]) .pureExtern) ∧
    apply_patterns d6 adds some = some d6 ∧
    apply_patterns x8 adds some =
      some (.call ⟨.int, 32, 64⟩ "halide.hexagon.add_shl.vw.vw.w"
        (EL [vvar, vvar, .intImm i32s 3]) .pureExtern) ∧
    apply_patterns d8 adds some =
      some (.call ⟨.int, 32, 64⟩ "halide.hexagon.add_shr.vw.vw.w"
        (EL [vvar, vvar, .intImm i32s 3]) .pureExtern) :=
  ⟨fun flags => exact_log2_phase_abort flags,
   fun flags => exact_log2_phase_replace flags,
   try_pattern_log2_abort,
   by decide, by decide, by decide, by decide⟩

/-- Witness for C5: the non-power-of-two 6 aborts the phase and the whole
pattern attempt at the `add_shl` pattern. -/
theorem c5_exact_log2_witness :
    exact_log2_phase Pattern.ExactLog2Op2 0 [vvar, vvar, .intImm i32s 6] = none ∧
    try_pattern some x6 p_add_shl = .noMatch := by
  constructor
  · exact c5_exact_log2.1 Pattern.ExactLog2Op2 [vvar, vvar, .intImm i32s 6] 0 2
      (.intImm i32s 6) (by decide) (by decide) (by decide) (by decide)
  · exact c5_exact_log2.2.2.1 some x6 p_add_shl [vvar, vvar, .intImm i32s 6]
      [vvar, vvar, .intImm i32s 6] (by decide) (by decide) (by decide)

/-! ### Claim C6 — subtraction via lossless negation -/

/-- C6: the lossless-negate helper succeeds exactly on a negatable constant
or a product with a negatable factor and returns an absent result on
failure, never a fabricated value; and the vector subtraction visit
rewrites `a - b` to `a + (-b)` and retries the add table on both operand
orders only when the negation succeeds, recursing normally on failure (or
when neither order matches). -/
theorem c6_sub_negate :
    (∀ x, (lossless_negate x).isSome = negatable_spec x) ∧
    (∀ (fuel : Nat) (a b : Expr), (Expr.sub a b).ty.is_vector = true →
      ((lossless_negate b = none →
         op_mutate (fuel + 1) (.sub a b) = map_children (op_mutate fuel) (.sub a b)) ∧
       (∀ nb r, lossless_negate b = some nb →
         apply_patterns (.add a nb) adds (op_mutate fuel) = some r → r ≠ .add a nb →
         op_mutate (fuel + 1) (.sub a b) = some r) ∧
       (∀ nb r2, lossless_negate b = some nb →
         apply_patterns (.add a nb) adds (op_mutate fuel) = some (.add a nb) →
         apply_patterns (.add nb a) adds (op_mutate fuel) = some r2 → r2 ≠ .add nb a →
         op_mutate (fuel + 1) (.sub a b) = some r2) ∧
       (∀ nb, lossless_negate b = some nb →
         apply_patterns (.add a nb) adds (op_mutate fuel) = some (.add a nb) →
         apply_patterns (.add nb a) adds (op_mutate fuel) = some (.add nb a) →
         op_mutate (fuel + 1) (.sub a b) = map_children (op_mutate fuel) (.sub a b)))) := by
  refine ⟨lossless_negate_spec, fun fuel a b hvec => ⟨?_, ?_, ?_, ?_⟩⟩
  · intro hln
    simp [op_mutate, hvec, hln]
  · intro nb r hln hap hne
    simp [op_mutate, hvec, hln, hap, bne_iff_ne, hne]
  · intro nb r2 hln hap hap2 hne
    simp [op_mutate, hvec, hln, hap, hap2, bne_iff_ne, hne]
  · intro nb hln hap hap2
    simp [op_mutate, hvec, hln, hap, hap2]

/-- Witness for C6: the negation characterization at a broadcast constant,
and the subtraction of a product with the negatable factor `-8` rewritten
through the add table to a shift intrinsic. -/
theorem c6_sub_negate_witness :
    (lossless_negate (.broadcast (.intImm i32s 6) 64)).isSome =
      negatable_spec (.broadcast (.intImm i32s 6) 64) ∧
    op_mutate 2 (.sub vvar (.mul vvar (.broadcast (.intImm i32s (-8)) 64))) =
      some (.call ⟨.int, 32, 64⟩ "halide.hexagon.add_shl.vw.vw.w"
        (EL [vvar, vvar, .intImm i32s 3]) .pureExtern) := by
  constructor
  · exact c6_sub_negate.1 _
  · have h := c6_sub_negate.2 1 vvar (.mul vvar (.broadcast (.intImm i32s (-8)) 64))
      (by decide)
    exact h.2.1 (.mul vvar (.broadcast (.intImm i32s 8) 64))
      (.call ⟨.int, 32, 64⟩ "halide.hexagon.add_shl.vw.vw.w"
        (EL [vvar, vvar, .intImm i32s 3]) .pureExtern)
      (by decide) (by decide) (by decide)

end HexOpt

namespace HexOpt

/-! ### Claim C7 — the upper-bound helper -/

/-- Refutes C7 as stated: the rewrite of `max(x,0) - max(y,0)` to `x - y`
does not widen at every valuation; at `x = -5, y = 0` the original
evaluates to 0 while the rewritten expression evaluates to -5. -/
theorem c7_upper_bound_widening_cex :
    upper_bound 3 (.sub (.max xv k0) (.max yv k0)) = .sub xv yv ∧
    evalI env0 (.sub xv yv) < evalI env0 (.sub (.max xv k0) (.max yv k0)) := by decide

/-- C7 (amended): the upper-bound helper rewrites `max(x,k) - max(y,k)` and
`min(x,k) - min(y,k)` with structurally identical `k` to `x - y`; the
rewriting widens at every valuation under which `x` evaluates to at least
`y` (as holds when `x` and `y` are the upper and lower bounds of a common
index expression), but not unconditionally. -/
theorem c7_upper_bound_widening (nx ny : String) (c : Int) (env : String → Int)
    (h : env ny ≤ env nx) :
    upper_bound 3 (.sub (.max (.var i32s nx) (.intImm i32s c))
        (.max (.var i32s ny) (.intImm i32s c))) = .sub (.var i32s nx) (.var i32s ny) ∧
    upper_bound 3 (.sub (.min (.var i32s nx) (.intImm i32s c))
        (.min (.var i32s ny) (.intImm i32s c))) = .sub (.var i32s nx) (.var i32s ny) ∧
    evalI env (.sub (.max (.var i32s nx) (.intImm i32s c))
        (.max (.var i32s ny) (.intImm i32s c))) ≤
      evalI env (.sub (.var i32s nx) (.var i32s ny)) ∧
    evalI env (.sub (.min (.var i32s nx) (.intImm i32s c))
        (.min (.var i32s ny) (.intImm i32s c))) ≤
      evalI env (.sub (.var i32s nx) (.var i32s ny)) := by
  refine ⟨?_, ?_, ?_, ?_⟩
  · simp [upper_bound, ub_mutate, map_children_p, simp_e]
  · simp [upper_bound, ub_mutate, map_children_p, simp_e]
  · simp only [evalI]
    rcases max_cases (env nx) c with ⟨h1, _⟩ | ⟨h1, _⟩ <;>
      rcases max_cases (env ny) c with ⟨h2, _⟩ | ⟨h2, _⟩ <;> omega
  · simp only [evalI]
    rcases min_cases (env nx) c with ⟨h1, _⟩ | ⟨h1, _⟩ <;>
      rcases min_cases (env ny) c with ⟨h2, _⟩ | ⟨h2, _⟩ <;> omega

/-- Witness for C7 at `x = 7, y = 0, k = 0`. -/
theorem c7_upper_bound_widening_witness :
    upper_bound 3 (.sub (.max (.var i32s "x") (.intImm i32s 0))
        (.max (.var i32s "y") (.intImm i32s 0))) = .sub (.var i32s "x") (.var i32s "y") ∧
    evalI env1 (.sub (.max (.var i32s "x") (.intImm i32s 0))
        (.max (.var i32s "y") (.intImm i32s 0))) ≤
      evalI env1 (.sub (.var i32s "x") (.var i32s "y")) := by
  have h := c7_upper_bound_widening "x" "y" 0 env1 (by decide)
  exact ⟨h.1, h.2.2.1⟩

/-! ### Claim C8 — the clz/clz-not max rewrite -/

/-- C8: after the ordinary recursive mutation of a vector max node, a
mutated expression matching `max(clz(x), clz(~x))` at the 16-bit width with
structurally equal bindings is replaced by the `cls.vh` intrinsic call plus
one; with the 16-bit attempt failed, the 32-bit template likewise produces
`cls.vw` plus one; and when neither width attempt succeeds (including a
match with unequal bindings) the mutated node is kept. -/
theorem c8_cls_rewrite (fuel : Nat) (a b e : Expr)
    (hvec : (Expr.max a b).ty.is_vector = true)
    (hm : map_children (op_mutate fuel) (.max a b) = some e) :
    (∀ m0 m1 rest,
       expr_match (.max (clz wild_i16x) (clz (bnot wild_i16x))) e = some (m0 :: m1 :: rest) →
       m0 = m1 →
       op_mutate (fuel + 1) (.max a b) =
         some (.add (.call (Expr.max a b).ty "halide.hexagon.cls.vh" (EL [m0]) .pureExtern)
           (make_const (Expr.max a b).ty 1))) ∧
    (∀ m0 m1 rest,
       cls_try (Expr.max a b).ty e "halide.hexagon.cls.vh"
         (.max (clz wild_i16x) (clz (bnot wild_i16x))) = none →
       expr_match (.max (clz wild_i32x) (clz (bnot wild_i32x))) e = some (m0 :: m1 :: rest) →
       m0 = m1 →
       op_mutate (fuel + 1) (.max a b) =
         some (.add (.call (Expr.max a b).ty "halide.hexagon.cls.vw" (EL [m0]) .pureExtern)
           (make_const (Expr.max a b).ty 1))) ∧
    (cls_try (Expr.max a b).ty e "halide.hexagon.cls.vh"
       (.max (clz wild_i16x) (clz (bnot wild_i16x))) = none →
     cls_try (Expr.max a b).ty e "halide.hexagon.cls.vw"
       (.max (clz wild_i32x) (clz (bnot wild_i32x))) = none →
     op_mutate (fuel + 1) (.max a b) = some e) := by
  refine ⟨?_, ?_, ?_⟩
  · intro m0 m1 rest hmt heq
    subst heq
    have h1 : max_cls_rewrite (Expr.max a b).ty e =
        some (.add (.call (Expr.max a b).ty "halide.hexagon.cls.vh" (EL [m0]) .pureExtern)
          (make_const (Expr.max a b).ty 1)) := by
      unfold max_cls_rewrite cls_try
      rw [hmt]
      simp
    simp [op_mutate, hvec, hm, h1]
  · intro m0 m1 rest h16 hmt heq
    subst heq
    have h1 : max_cls_rewrite (Expr.max a b).ty e =
        some (.add (.call (Expr.max a b).ty "halide.hexagon.cls.vw" (EL [m0]) .pureExtern)
          (make_const (Expr.max a b).ty 1)) := by
      unfold max_cls_rewrite
      rw [h16]
      unfold cls_try
      rw [hmt]
      simp
    simp [op_mutate, hvec, hm, h1]
  · intro h16 h32
    have h1 : max_cls_rewrite (Expr.max a b).ty e = none := by
      unfold max_cls_rewrite
      rw [h16, h32]
    simp [op_mutate, hvec, hm, h1]

/-- Witness for C8: the positive 16-bit rewrite with equal operands, and
the untouched case when the two operands differ. -/
theorem c8_cls_rewrite_witness :
    op_mutate 3 (.max (clz wvar) (clz (bnot wvar))) =
      some (.add (.call ⟨.int, 16, 64⟩ "halide.hexagon.cls.vh" (EL [wvar]) .pureExtern)
        (.broadcast (.intImm ⟨.int, 16, 1⟩ 1) 64)) ∧
    op_mutate 3 (.max (clz wvar) (clz (bnot (.var ⟨.int, 16, 64⟩ "u")))) =
      some (.max (clz wvar) (clz (bnot (.var ⟨.int, 16, 64⟩ "u")))) := by
  constructor
  · have h := c8_cls_rewrite 2 (clz wvar) (clz (bnot wvar))
      (.max (clz wvar) (clz (bnot wvar))) (by decide) (by decide)
    exact h.1 wvar wvar [] (by decide) rfl
  · have h := c8_cls_rewrite 2 (clz wvar) (clz (bnot (.var ⟨.int, 16, 64⟩ "u")))
      (.max (clz wvar) (clz (bnot (.var ⟨.int, 16, 64⟩ "u")))) (by decide) (by decide)
    exact h.2.2 (by decide) (by decide)

/-! ### Claim C9 — pattern flag safety -/

/-- Refutes C9 as stated: the very first cast pattern (`avg.vub.vub`, whose
flag word is the blanket `NarrowOps` mask) sets the narrow bit for operand
2 while its template binds only two wildcards, so not every positional flag
stays within the wildcard count (the out-of-range narrow bit is harmless
because the flag loops are bounded by the binding count). -/
theorem c9_flag_safety_cex :
    ∃ p, casts[0]? = some p ∧ p.flags.testBit 12 = true ∧
      (template_wilds p.pattern).length = 2 := by decide

/-- C9 (amended): for every pattern in the shipped cast, multiply, and add
tables, the flags consulted by the fatal assertions stay within the
template: a `SwapOps01` flag only appears with at least two wildcards, a
`SwapOps12` flag only with at least three, each exact-log2 flag references
an operand index within the wildcard count, and every operand carrying a
deinterleave flag is an in-range, vector-typed wildcard — so the fatal
assertions of `apply_patterns` cannot fire on a structural match; an
out-of-range flag bit exists only in the never-consulted narrow masks. -/
theorem c9_flag_safety : ((casts ++ muls ++ adds).all pattern_flags_safe) = true := by decide

end HexOpt

namespace HexOpt

/-! ### Claim C10 — deinterleave of a yielding argument -/

/-- Refutes C10 as stated: for a scalar expression that the eliminator does
not leave fixed, mutating its deinterleave returns the mutated expression,
not the original. -/
theorem c10_deinterleave_removal_cex :
    scex.ty.is_scalar = true ∧
    ei_mutate [] (dvw scex) = some (.let_ "z" wvar (.intImm i32s 5)) ∧
    ei_mutate [] (dvw scex) ≠ some scex := by decide

/-- C10 (amended): the eliminator removes a deinterleave marker whenever
its mutated argument merely yields an interleave: when the mutated argument
is a scalar or a lane broadcast (and not itself a marker call) the result
is that mutated argument — hence the argument itself whenever the
eliminator leaves it unchanged; and for a vector variable with an in-scope
deinterleaved shadow the result is a reference to the shadow variable. -/
theorem c10_deinterleave_removal (vars : List String) (b b' db : Expr)
    (hb : ei_mutate vars b = some b') (hdb : native_deinterleave b = some db) :
    ((b'.ty.is_scalar || is_broadcast b') = true → is_native_interleave b' = false →
       ei_mutate vars db = some b') ∧
    (∀ t n, b = .var t n → t.is_scalar = false →
       vars.contains (n ++ ".deinterleaved") = true →
       ei_mutate vars db = some (.var t (n ++ ".deinterleaved"))) := by
  unfold native_deinterleave at hdb
  split at hdb
  case h_4 => exact absurd hdb (by simp)
  case h_1 =>
    injection hdb with hdx
    subst hdx
    exact ei_deint_helper vars b b' _ (by decide) hb
  case h_2 =>
    injection hdb with hdx
    subst hdx
    exact ei_deint_helper vars b b' _ (by decide) hb
  case h_3 =>
    injection hdb with hdx
    subst hdx
    exact ei_deint_helper vars b b' _ (by decide) hb

/-- Witness for C10: a broadcast constant passes through, and a shadowed
vector variable is rewritten to its shadow. -/
theorem c10_deinterleave_removal_witness :
    ei_mutate [] (.call ⟨.int, 16, 64⟩ "halide.hexagon.deinterleave.vh" (.cons bc3 .nil)
      .pureExtern) = some bc3 ∧
    ei_mutate ["t.deinterleaved"] (.call ⟨.int, 16, 64⟩ "halide.hexagon.deinterleave.vh"
      (.cons tvar .nil) .pureExtern) = some tdvar := by
  constructor
  · exact (c10_deinterleave_removal [] bc3 bc3 _ (by decide) (by decide)).1
      (by decide) (by decide)
  · exact (c10_deinterleave_removal ["t.deinterleaved"] tvar tvar _ (by decide)
      (by decide)).2 ⟨.int, 16, 64⟩ "t" rfl (by decide) (by decide)

end HexOpt
